import Mathlib

/-!
Verification development for the ArchiCAD IFC plugin gateway
(`ConversionHandler.cpp`, `WebSocketServer.cpp`, `IFC_To_Archicad.cpp`).

The shallow embedding models:
* the static job state of `ConversionHandler`
  (`s_conversionInProgress`, `s_currentJobId`, `s_shouldCancel`);
* `ConvertPlnToIfc` / `ConvertIfcToPln`, parametrised by an environment
  recording the outcome of each opaque host call (file status check,
  `ACAPI_ProjectOperation_Open`, translator lookup,
  `ACAPI_ProjectOperation_Save`), each of which can return an error code or
  throw; the progress callback is modelled as event emission;
* `CancelConversion`, `IsConversionInProgress`;
* the `ConversionCommand::Execute` wrapper that forwards progress callbacks
  to `SendProgress` and finishes with `SendCompletion` / `SendError`;
* the per-session outbound write queue of `WebSocketSession`
  (`Send` / `OnWrite`);
* `ArchicadWebSocketServer::EscapeJson` at the byte level (the plugin is
  built with MSVC / x86-64 clang, where `char` is signed);
* the substring-based field extraction of
  `ArchicadWebSocketServer::HandleCommand` and `HandleWebSocketCommand`.
-/

set_option linter.unusedVariables false

namespace IfcGateway

/-- The static mutable state of `ConversionHandler`
(`ConversionHandler.cpp` lines 29-31). -/
structure JobState where
  conversionInProgress : Bool
  currentJobId : String
  shouldCancel : Bool
deriving DecidableEq, Repr

/-- The state right after the admission writes of `ConvertPlnToIfc` /
`ConvertIfcToPln` (lines 71-73 and 288-290): the three statics are
overwritten without reading the previous state. -/
def admitState (jobId : String) : JobState :=
  { conversionInProgress := true, currentJobId := jobId, shouldCancel := false }

/-- Model of `ConversionHandler::CancelConversion` (lines 462-471). -/
def CancelConversion (jobId : String) (s : JobState) : Bool × JobState :=
  if !s.conversionInProgress || s.currentJobId != jobId then (false, s)
  else (true, { s with shouldCancel := true })

/-- Model of `ConversionHandler::IsConversionInProgress` (lines 473-476). -/
def IsConversionInProgress (jobId : String) (s : JobState) : Bool :=
  s.conversionInProgress && (s.currentJobId == jobId)

/-- A C++ exception crossing one of the opaque host calls: either a
`std::exception` with a `what()` message or an unknown exception. -/
inductive CppExn where
  | std (what : String)
  | unknown
deriving DecidableEq, Repr

/-- Message produced by the outer `catch` blocks of the conversion bodies
(lines 235-244 and 425-434). -/
def outerMsg : CppExn → String
  | .std w => "Error: " ++ w
  | .unknown => "Error: Unknown exception"

/-- Outcomes of the opaque host calls made by `ConvertPlnToIfc`.
`preThrow` models an exception thrown before the first host-call check
(caught by the outer catch); the `Except` fields model calls that either
throw or return a `GSErrCode` (0 = `NoError`). -/
structure PlnEnv where
  preThrow : Option CppExn
  fileStatus : Nat
  openRes : Except CppExn Nat
  translatorErr : Nat
  translatorsEmpty : Bool
  saveRes : Except CppExn Nat
deriving Repr

/-- Outcomes of the opaque host calls made by `ConvertIfcToPln`. -/
structure IfcEnv where
  preThrow : Option CppExn
  fileStatus : Nat
  openRes : Except CppExn Nat
  saveRes : Except CppExn Nat
deriving Repr

/-- The `(progress, message)` pairs passed to `onProgress` by the body of
`ConvertPlnToIfc` (lines 77-245), together with the final value of
`success`. Every branch mirrors a branch of the source. -/
def bodyPln (env : PlnEnv) : List (Nat × String) × Bool :=
  match env.preThrow with
  | some e => ([(0, outerMsg e)], false)
  | none =>
    if env.fileStatus ≠ 0 then ([(0, "Error: Cannot access .pln file")], false)
    else
      let pre := [(20, "Closing current project"), (30, "Opening .pln project")]
      match env.openRes with
      | .error (.std w) => (pre ++ [(0, "Exception opening project: " ++ w)], false)
      | .error .unknown => (pre ++ [(0, "Unknown exception opening project")], false)
      | .ok c =>
        if c ≠ 0 then (pre ++ [(0, "Error opening .pln file. Code: " ++ toString c)], false)
        else
          let pre2 := pre ++ [(50, "Preparing IFC export")]
          if env.translatorErr ≠ 0 ∨ env.translatorsEmpty = true then
            (pre2 ++ [(0, "Error: No IFC translators available")], false)
          else
            let pre3 := pre2 ++ [(70, "Exporting to IFC")]
            match env.saveRes with
            | .error (.std w) => (pre3 ++ [(0, "Exception saving IFC: " ++ w)], false)
            | .error .unknown => (pre3 ++ [(0, "Unknown exception saving IFC")], false)
            | .ok c2 =>
              if c2 ≠ 0 then
                (pre3 ++ [(0, "Error saving IFC file. Code: " ++ toString c2)], false)
              else (pre3 ++ [(100, "Conversion completed successfully")], true)

/-- The `(progress, message)` pairs passed to `onProgress` by the body of
`ConvertIfcToPln` (lines 294-435), together with the final `success`. -/
def bodyIfc (env : IfcEnv) : List (Nat × String) × Bool :=
  match env.preThrow with
  | some e => ([(0, outerMsg e)], false)
  | none =>
    if env.fileStatus ≠ 0 then ([(0, "Error: Cannot access IFC file")], false)
    else
      let pre := [(20, "Closing current project"), (40, "Loading IFC file")]
      match env.openRes with
      | .error (.std w) => (pre ++ [(0, "Exception opening IFC: " ++ w)], false)
      | .error .unknown => (pre ++ [(0, "Unknown exception opening IFC")], false)
      | .ok c =>
        if c ≠ 0 then (pre ++ [(0, "Error opening IFC file. Code: " ++ toString c)], false)
        else
          let pre2 := pre ++ [(70, "Saving as PLN file")]
          match env.saveRes with
          | .error (.std w) => (pre2 ++ [(0, "Exception saving PLN: " ++ w)], false)
          | .error .unknown => (pre2 ++ [(0, "Unknown exception saving PLN")], false)
          | .ok c2 =>
            if c2 ≠ 0 then
              (pre2 ++ [(0, "Error saving PLN file. Code: " ++ toString c2)], false)
            else (pre2 ++ [(100, "Conversion completed successfully")], true)

/-- Result of one call to `ConvertPlnToIfc` / `ConvertIfcToPln`:
the returned `success`, whether the call was admitted past the busy check,
whether the unconditional cleanup block (close project + `OpenBlankTemplate`)
ran, the `(progress, message)` callback trace, and the final static state. -/
structure ConvResult where
  success : Bool
  admitted : Bool
  cleanupRan : Bool
  events : List (Nat × String)
  state : JobState
deriving DecidableEq, Repr

/-- Progress message of the busy-rejection branch (lines 63-69, 280-286). -/
def busyMsg : String := "Error: Another conversion is already in progress"

/-- Model of `ConversionHandler::ConvertPlnToIfc` (lines 55-270).  If a conversion is
already in progress the call reports the busy error and returns `false`
without touching the state.  Otherwise the admission writes run, the body
executes (all its exit paths jump to the `error:` label), the cleanup block
always runs, and the state is reset (`s_conversionInProgress = false`,
`s_currentJobId = ""`; `s_shouldCancel` keeps the value `false` written at
admission since neither body nor cleanup writes it). -/
def ConvertPlnToIfc (env : PlnEnv) (jobId plnPath outputPath : String)
    (s : JobState) : ConvResult :=
  if s.conversionInProgress then
    { success := false, admitted := false, cleanupRan := false
      events := [(0, busyMsg)], state := s }
  else
    { success := (bodyPln env).2, admitted := true, cleanupRan := true
      events := (bodyPln env).1
      state := { conversionInProgress := false, currentJobId := "", shouldCancel := false } }

/-- Model of `ConversionHandler::ConvertIfcToPln` (lines 272-460). -/
def ConvertIfcToPln (env : IfcEnv) (jobId ifcPath outputPath : String)
    (s : JobState) : ConvResult :=
  if s.conversionInProgress then
    { success := false, admitted := false, cleanupRan := false
      events := [(0, busyMsg)], state := s }
  else
    { success := (bodyIfc env).2, admitted := true, cleanupRan := true
      events := (bodyIfc env).1
      state := { conversionInProgress := false, currentJobId := "", shouldCancel := false } }

/-- An outbound event broadcast by `ArchicadWebSocketServer` (`SendProgress`,
`SendError`, `SendCompletion`, lines 460-501): the JSON `type` field is
`progress`, `error` or `completed`. -/
inductive WEvent where
  | progress (jobId : String) (p : Nat) (status message : String)
  | error (jobId : String) (message : String)
  | completed (jobId : String) (outputPath : String)
deriving DecidableEq, Repr

/-- Status string computed by the progress lambda of
`ConversionCommand::Execute` (`IFC_To_Archicad.cpp` line 93). -/
def statusOf (p : Nat) : String :=
  if p = 0 then "error" else if p = 100 then "completed" else "processing"

/-- Events broadcast by `ConversionCommand::Execute`
(`IFC_To_Archicad.cpp` lines 64-114, with `g_wsServer` non-null): each
`onProgress(p, m)` becomes a `SendProgress` event, then `SendCompletion` on
success or `SendError(jobId, "Conversion failed")` on failure.  Returns the
`success` flag, the final static state and the broadcast event list. -/
def ExecuteConvertPlnToIfc (env : PlnEnv) (jobId plnPath outputPath : String)
    (s : JobState) : Bool × JobState × List WEvent :=
  let r := ConvertPlnToIfc env jobId plnPath outputPath s
  let evs := r.events.map (fun pm => WEvent.progress jobId pm.1 (statusOf pm.1) pm.2)
  (r.success, r.state,
    evs ++ (if r.success then [WEvent.completed jobId outputPath]
            else [WEvent.error jobId "Conversion failed"]))

/-- Events broadcast by `ConvertIfcToPlnCommand::Execute`
(`IFC_To_Archicad.cpp` lines 117-167). -/
def ExecuteConvertIfcToPln (env : IfcEnv) (jobId ifcPath outputPath : String)
    (s : JobState) : Bool × JobState × List WEvent :=
  let r := ConvertIfcToPln env jobId ifcPath outputPath s
  let evs := r.events.map (fun pm => WEvent.progress jobId pm.1 (statusOf pm.1) pm.2)
  (r.success, r.state,
    evs ++ (if r.success then [WEvent.completed jobId outputPath]
            else [WEvent.error jobId "Conversion failed"]))

/-- Does this event carry JSON `type:"error"` and the given jobId? -/
def isErrorFor (jobId : String) : WEvent → Bool
  | .error j _ => j == jobId
  | _ => false

/-- The admission prefix of `ConvertPlnToIfc` / `ConvertIfcToPln`
(lines 62-73 and 279-290): the busy check followed, on success, by the
admission writes.  Both call sites of the conversion functions are the
`Execute` methods of add-on commands declared with
`API_AddOnCommandExecutionPolicy::ScheduleForExecutionOnMainThread`
(`ConversionCommand.hpp` lines 51-54 and 93-95), and every
`start_conversion` frame is processed by the single WebSocket io thread
(`m_ioc.run()` on one thread, `WebSocketServer.cpp` line 267) blocking on a
synchronous HTTP round trip, so admission prefixes execute serialized on
ArchiCAD's main thread: each runs atomically with respect to every other
start request. -/
def admitAttempt (jobId : String) (s : JobState) : Bool × JobState :=
  if s.conversionInProgress then (false, s) else (true, admitState jobId)

/-- A batch of start requests processed in their serialization order on the
main thread, each running the atomic admission prefix against the shared
static state. -/
def admitRun : List String → JobState → List Bool × JobState
  | [], s => ([], s)
  | j :: rest, s =>
    let r1 := admitAttempt j s
    let r2 := admitRun rest r1.2
    (r1.1 :: r2.1, r2.2)

/-- State of one `WebSocketSession`'s outbound path (`WebSocketServer.cpp`
lines 128-175): the open flag, the private FIFO `m_writeQueue`, whether an
`async_write` is in flight, plus two histories — the messages accepted by
`Send` and the messages whose transmission completed, in order. -/
structure SessState where
  sessOpen : Bool
  queue : List String
  writing : Bool
  accepted : List String
  transmitted : List String
deriving DecidableEq, Repr

/-- An action on the session: a `Send` call, a write-completion (`OnWrite`
with no error), a failed write, or `Close`. -/
inductive SessAct where
  | send (m : String)
  | complete
  | writeError
  | close
deriving DecidableEq, Repr

/-- One step of the session outbound machine.
`send`: if closed, the message is dropped (line 130); otherwise it is
appended to the FIFO and, when the queue was empty, a transmission starts
(lines 134-143).  `complete`: `OnWrite` pops the head (the message just
transmitted, line 170) and starts the next transmission iff the queue is
non-empty (lines 172-174).  `writeError`: `OnWrite` with an error code sets
`m_open = false` without popping (lines 163-167).  `close`: sets the open
flag false (lines 177-191). -/
def sessStep (a : SessAct) (st : SessState) : SessState :=
  match a with
  | .send m =>
    if st.sessOpen then
      let wasWriting := st.queue ≠ []
      { st with queue := st.queue ++ [m], accepted := st.accepted ++ [m]
                writing := if wasWriting then st.writing else true }
    else st
  | .complete =>
    match st.queue with
    | [] => st
    | m :: rest =>
      if st.writing then
        { st with queue := rest, transmitted := st.transmitted ++ [m]
                  writing := rest ≠ [] }
      else st
  | .writeError => { st with sessOpen := false, writing := false }
  | .close => { st with sessOpen := false }

/-- Run a sequence of session actions. -/
def sessRun (acts : List SessAct) (st : SessState) : SessState :=
  acts.foldl (fun s a => sessStep a s) st

/-- The initial session state after the websocket handshake. -/
def sessInit : SessState :=
  { sessOpen := true, queue := [], writing := false, accepted := [], transmitted := [] }

/-- One atomic step of an admitted conversion as seen by the shared statics:
a progress emission (which reads no static), or the final state reset of the
cleanup epilogue (lines 266-267 / 456-457), or an interleaved
`CancelConversion` call from the websocket thread. -/
inductive HStep where
  | emit (p : Nat) (m : String)
  | cancelReq (jobId : String)
  | writeReset
deriving DecidableEq, Repr

/-- Effect of one step on the static state. -/
def stepState : HStep → JobState → JobState
  | .emit _ _, s => s
  | .cancelReq j, s => (CancelConversion j s).2
  | .writeReset, s => { s with conversionInProgress := false, currentJobId := "" }

/-- Events produced by one step. -/
def stepEvents : HStep → List (Nat × String)
  | .emit p m => [(p, m)]
  | _ => []

/-- Execute a list of steps, returning the final state and the emitted
events in order. -/
def runSteps : List HStep → JobState → JobState × List (Nat × String)
  | [], s => (s, [])
  | h :: t, s =>
    let r := runSteps t (stepState h s)
    (r.1, stepEvents h ++ r.2)

/-- The step sequence of an admitted conversion body with event trace `evs`:
the emissions followed by the state reset of the cleanup epilogue. -/
def convSteps (evs : List (Nat × String)) : List HStep :=
  evs.map (fun pm => HStep.emit pm.1 pm.2) ++ [HStep.writeReset]

/-- Run of `ConvertPlnToIfc` with a concurrent `CancelConversion cancelId` call
interleaved after `i` steps of the admitted conversion. -/
def ConvertPlnToIfcWithCancelAt (env : PlnEnv) (jobId cancelId : String)
    (plnPath outputPath : String) (i : Nat) (s : JobState) : ConvResult :=
  if s.conversionInProgress then
    { success := false, admitted := false, cleanupRan := false
      events := [(0, busyMsg)], state := s }
  else
    let steps := convSteps (bodyPln env).1
    let r := runSteps (steps.take i ++ HStep.cancelReq cancelId :: steps.drop i)
      (admitState jobId)
    { success := (bodyPln env).2, admitted := true, cleanupRan := true
      events := r.2, state := r.1 }

/-- Run of `ConvertIfcToPln` with a concurrent `CancelConversion cancelId` call
interleaved after `i` steps of the admitted conversion. -/
def ConvertIfcToPlnWithCancelAt (env : IfcEnv) (jobId cancelId : String)
    (ifcPath outputPath : String) (i : Nat) (s : JobState) : ConvResult :=
  if s.conversionInProgress then
    { success := false, admitted := false, cleanupRan := false
      events := [(0, busyMsg)], state := s }
  else
    let steps := convSteps (bodyIfc env).1
    let r := runSteps (steps.take i ++ HStep.cancelReq cancelId :: steps.drop i)
      (admitState jobId)
    { success := (bodyIfc env).2, admitted := true, cleanupRan := true
      events := r.2, state := r.1 }

/-- Model of `std::string::find(pat)` on byte strings modelled as `List Char`:
index of the first occurrence of `pat`, or `none` for `npos`. -/
def strFind (s pat : List Char) : Option Nat :=
  if pat.isPrefixOf s then some 0
  else
    match s with
    | [] => none
    | _ :: t => (strFind t pat).map (· + 1)

/-- Model of `std::string::find(pat, pos)` where `pos` may already be `npos`
(`npos` propagates: `find` from `npos` is `npos`). -/
def findFromOpt (s pat : List Char) : Option Nat → Option Nat
  | none => none
  | some i => (strFind (s.drop i) pat).map (· + i)

/-- The colon/quote/quote scan-and-substr sequence that every field
extraction in `HandleCommand` (`WebSocketServer.cpp` lines 391-418) and
`HandleWebSocketCommand` (`IFC_To_Archicad.cpp` lines 426-474) performs from
a found key position: `colonPos = find(":", keyPos)`,
`quoteStart = find("\x22", colonPos)`, `quoteEnd = find("\x22", quoteStart+1)`,
then `substr(quoteStart+1, quoteEnd-quoteStart-1)` when both quotes were
found. -/
def extractAt (payload : List Char) (kpos : Option Nat) : Option (List Char) :=
  let colonPos := findFromOpt payload [':'] kpos
  let quoteStart := findFromOpt payload ['"'] colonPos
  let quoteEnd :=
    match quoteStart with
    | none => none
    | some q => findFromOpt payload ['"'] (some (q + 1))
  match quoteStart, quoteEnd with
  | some qs, some qe => some ((payload.drop (qs + 1)).take (qe - qs - 1))
  | _, _ => none

/-- Position of the first of two accepted key spellings: the second is
searched only when the first is absent (`IFC_To_Archicad.cpp`
lines 426-429, 444-447, 462-465). -/
def keyPosOf (payload k1 k2 : List Char) : Option Nat :=
  match strFind payload k1 with
  | some i => some i
  | none => strFind payload k2

/-- The quoted key strings searched by the router. -/
def plnK1 : List Char := "\"plnPath\"".data
def plnK2 : List Char := "\"pln_path\"".data
def ifcK1 : List Char := "\"ifcPath\"".data
def ifcK2 : List Char := "\"ifc_path\"".data
def outK1 : List Char := "\"outputPath\"".data
def outK2 : List Char := "\"output_path\"".data
def cmdKey : List Char := "\"command\"".data
def jobKey : List Char := "\"jobId\"".data

/-- Decision taken by the `start_conversion` branch of
`HandleWebSocketCommand` (`IFC_To_Archicad.cpp` lines 417-487): either an
error event is sent and nothing is dispatched, or a conversion in the given
direction is dispatched to the main thread. -/
inductive StartDecision where
  | errorEvent (jobId message : String)
  | dispatch (isPlnToIfc : Bool) (inputPath outputPath : List Char)
deriving DecidableEq, Repr

/-- The `start_conversion` branch of `HandleWebSocketCommand`
(lines 417-487): try `plnPath`/`pln_path` (success also sets
`isPlnToIfc = true`); if the input path is still empty try
`ifcPath`/`ifc_path` (success sets `isPlnToIfc = false`); extract
`outputPath`/`output_path`; if either path ends up empty, send one error
event and dispatch nothing, otherwise dispatch. -/
def handleStartConversion (jobId : String) (payload : List Char) : StartDecision :=
  let step1 : List Char × Bool :=
    match extractAt payload (keyPosOf payload plnK1 plnK2) with
    | some v => (v, true)
    | none => ([], false)
  let step2 : List Char × Bool :=
    if step1.1 = [] then
      match extractAt payload (keyPosOf payload ifcK1 ifcK2) with
      | some v => (v, false)
      | none => step1
    else step1
  let outPath : List Char :=
    match extractAt payload (keyPosOf payload outK1 outK2) with
    | some v => v
    | none => []
  if step2.1 = [] ∨ outPath = [] then
    .errorEvent jobId "Missing input path (pln_path or ifc_path) and output_path"
  else .dispatch step2.2 step2.1 outPath

/-- Field value as the router sees it: extracted text, or the empty string
when the key or its quotes are not found. -/
def extractFieldOr (payload key : List Char) : List Char :=
  match extractAt payload (strFind payload key) with
  | some v => v
  | none => []

/-- Model of `ArchicadWebSocketServer::HandleCommand` (`WebSocketServer.cpp`
lines 381-433): extract `command` and `jobId` by substring scanning; invoke
the command callback only when a callback is set and the extracted command
is non-empty.  The function broadcasts no event (second component always
`[]`). -/
def HandleCommand (hasCallback : Bool) (payload : List Char) :
    Option (List Char × List Char) × List WEvent :=
  let command := extractFieldOr payload cmdKey
  let jobId := extractFieldOr payload jobKey
  (if hasCallback ∧ command ≠ [] then some (command, jobId) else none, [])

/-- The error code seen by `WebSocketSession::OnRead`
(`WebSocketServer.cpp` lines 91-126). -/
inductive ReadErr where
  | closedByPeer
  | failed
  | ok
deriving DecidableEq, Repr

/-- Model of `WebSocketSession::OnRead`: on `websocket::error::closed` or any other
error the open flag is cleared and no further read is issued; otherwise the
message callback runs (ending in `HandleCommand`) and `DoRead()` is issued
again unconditionally.  Returns (open flag after, whether another read was
issued, the `HandleCommand` result). -/
def OnRead (ec : ReadErr) (mopen : Bool) (hasCallback : Bool)
    (payload : List Char) : Bool × Bool × (Option (List Char × List Char) × List WEvent) :=
  match ec with
  | .closedByPeer => (false, false, (none, []))
  | .failed => (false, false, (none, []))
  | .ok => (mopen, true, HandleCommand hasCallback payload)

/-- Interleave a list of quote-free chunks with `"` separators:
`qcat [a, b, c] = a ++ "\x22" ++ b ++ "\x22" ++ c`.  Well-formed JSON-like
payloads decompose this way, which pins down every position where a quoted
key string can occur. -/
def qcat : List (List Char) → List Char
  | [] => []
  | [c] => c
  | c :: cs => c ++ '"' :: qcat cs

/-- Length of `qcat cs` contributed by the chunks `cs` and the separators
before the final separator quote: the position of the quote that follows
`qcat pre` inside `qcat (pre ++ rest)`. -/
def qlen (cs : List (List Char)) : Nat :=
  (cs.map List.length).sum + (cs.length - 1)

/-- The chunks of a canonical payload before the source-path key. -/
def pre9 : List (List Char) :=
  ["\x7b".data, "command".data, ":".data, "start_conversion".data,
   ",".data, "jobId".data, ":".data, "J1".data, ",".data]

/-- A canonical `start_conversion` payload
`\x7b"command":"start_conversion","jobId":"J1","<srcKey>":"<p>","<outKey>":"<o>"\x7d`
with the given source and output key names and path values. -/
def payloadFor (srcKey outKey : String) (p o : List Char) : List Char :=
  qcat ["\x7b".data, "command".data, ":".data, "start_conversion".data,
        ",".data, "jobId".data, ":".data, "J1".data, ",".data,
        srcKey.data, ":".data, p, ",".data, outKey.data, ":".data, o,
        "\x7d".data]

/-- Hex digit byte as printed by `std::hex` (lowercase). -/
def hexDigitByte (n : Nat) : Nat :=
  if n < 10 then 48 + n else 87 + n

/-- The bytes printed for `"\x5cu" << std::hex << std::setw(4) <<
std::setfill('0') << static_cast<int>(c)` (`WebSocketServer.cpp` line 528).
`char` is signed on the plugin's targets, so a byte `b ≥ 0x80` is the
negative int `b - 256`, which `std::hex` prints as its 32-bit unsigned
value `0xffffff00 + b` — eight hex digits (`setw(4)` is only a minimum). -/
def hexPayloadBytes (b : Nat) : List Nat :=
  if b < 128 then [48, 48, hexDigitByte (b / 16), hexDigitByte (b % 16)]
  else [102, 102, 102, 102, 102, 102, hexDigitByte ((b / 16) % 16), hexDigitByte (b % 16)]

/-- Signed value of a byte, as a `char` on the plugin's targets. -/
def sByte (b : Nat) : Int :=
  if b < 128 then (b : Int) else (b : Int) - 256

/-- One byte of `ArchicadWebSocketServer::EscapeJson` (lines 514-535),
at byte level with signed `char` comparison `c < 0x20`. -/
def escapeChar (b : Nat) : List Nat :=
  if b = 34 then [92, 34]
  else if b = 92 then [92, 92]
  else if b = 8 then [92, 98]
  else if b = 12 then [92, 102]
  else if b = 10 then [92, 110]
  else if b = 13 then [92, 114]
  else if b = 9 then [92, 116]
  else if sByte b < 32 then 92 :: 117 :: hexPayloadBytes b
  else [b]

/-- Model of `ArchicadWebSocketServer::EscapeJson` over the bytes of the input. -/
def EscapeJson : List Nat → List Nat
  | [] => []
  | b :: t => escapeChar b ++ EscapeJson t

/-- Value of one hex digit byte, accepting both cases. -/
def hexVal (c : Nat) : Option Nat :=
  if 48 ≤ c ∧ c ≤ 57 then some (c - 48)
  else if 97 ≤ c ∧ c ≤ 102 then some (c - 87)
  else if 65 ≤ c ∧ c ≤ 70 then some (c - 55)
  else none

/-- Modelled from the spec: a standard JSON string decoder (RFC 8259) for
the body of a JSON string, which the repository does not contain (clients
decode the broadcast frames).  It accepts the escapes
`\x5c\x22 \x5c\x5c \x5c/ \x5cb \x5cf \x5cn \x5cr \x5ct \x5cuXXXX`, rejects
raw control characters below 0x20, rejects invalid escapes and surrogate
code units, and returns the decoded code-point sequence. -/
def decodeJsonString : List Nat → Option (List Nat)
  | [] => some []
  | c :: t =>
    if c = 92 then
      match t with
      | [] => none
      | e :: t2 =>
        if e = 34 then (decodeJsonString t2).map (34 :: ·)
        else if e = 92 then (decodeJsonString t2).map (92 :: ·)
        else if e = 47 then (decodeJsonString t2).map (47 :: ·)
        else if e = 98 then (decodeJsonString t2).map (8 :: ·)
        else if e = 102 then (decodeJsonString t2).map (12 :: ·)
        else if e = 110 then (decodeJsonString t2).map (10 :: ·)
        else if e = 114 then (decodeJsonString t2).map (13 :: ·)
        else if e = 116 then (decodeJsonString t2).map (9 :: ·)
        else if e = 117 then
          match t2 with
          | h1 :: h2 :: h3 :: h4 :: t3 =>
            match hexVal h1, hexVal h2, hexVal h3, hexVal h4 with
            | some x, some y, some z, some w =>
              let cp := 4096 * x + 256 * y + 16 * z + w
              if 55296 ≤ cp ∧ cp < 57344 then none
              else (decodeJsonString t3).map (cp :: ·)
            | _, _, _, _ => none
          | _ => none
        else none
    else if c < 32 then none
    else (decodeJsonString t).map (c :: ·)

/-! ## Theorems -/

/-- C5: `CancelConversion(jobId)` returns `true` and sets the cancel flag
iff a conversion is in progress and the supplied jobId equals the running
job's id; in every other case it returns `false` and changes no state. -/
theorem c5_cancel_iff (jobId : String) (s : JobState) :
    (CancelConversion jobId s = (true, { s with shouldCancel := true })
      ∧ s.conversionInProgress = true ∧ s.currentJobId = jobId)
    ∨ (CancelConversion jobId s = (false, s)
      ∧ (s.conversionInProgress = false ∨ s.currentJobId ≠ jobId)) := by
  by_cases h1 : s.conversionInProgress
  · by_cases h2 : s.currentJobId = jobId
    · exact Or.inl ⟨by simp [CancelConversion, h1, h2], h1, h2⟩
    · exact Or.inr ⟨by simp [CancelConversion, h1, h2], Or.inr h2⟩
  · exact Or.inr ⟨by simp [CancelConversion, h1],
      Or.inl (Bool.not_eq_true _ ▸ eq_false_of_ne_true (by simpa using h1))⟩

/-- C10: a conversion started with the empty jobId is admitted (there is no
non-emptiness check on admission), and while it runs
`IsConversionInProgress("")` returns `true` and `CancelConversion("")`
returns `true` and sets the cancel flag. -/
theorem c10_empty_jobid (env : PlnEnv) (plnPath outputPath : String)
    (s : JobState) (h : s.conversionInProgress = false) :
    (ConvertPlnToIfc env "" plnPath outputPath s).admitted = true
    ∧ IsConversionInProgress "" (admitState "") = true
    ∧ CancelConversion "" (admitState "") =
        (true, { conversionInProgress := true, currentJobId := "", shouldCancel := true }) := by
  refine ⟨by simp [ConvertPlnToIfc, h], by decide, by decide⟩

/-- Witness for `c10_empty_jobid` at a concrete environment and state. -/
theorem c10_empty_jobid_witness :
    (ConvertPlnToIfc ⟨none, 0, .ok 0, 0, false, .ok 0⟩ "" "in.pln" "out.ifc"
        ⟨false, "J0", false⟩).admitted = true
    ∧ IsConversionInProgress "" (admitState "") = true
    ∧ CancelConversion "" (admitState "") =
        (true, { conversionInProgress := true, currentJobId := "", shouldCancel := true }) :=
  c10_empty_jobid ⟨none, 0, .ok 0, 0, false, .ok 0⟩ "in.pln" "out.ifc"
    ⟨false, "J0", false⟩ rfl

/-- C2: every admitted conversion (either direction), for every outcome of
the host calls — success, any error branch, or a thrown exception — runs
the cleanup block and resets the state to Idle (`s_conversionInProgress =
false`, `s_currentJobId = ""`) before returning. -/
theorem c2_cleanup_always (envP : PlnEnv) (envI : IfcEnv)
    (jP jI plnPath ifcPath outP outI : String) (s t : JobState)
    (hs : s.conversionInProgress = false) (ht : t.conversionInProgress = false) :
    ((ConvertPlnToIfc envP jP plnPath outP s).cleanupRan = true
      ∧ (ConvertPlnToIfc envP jP plnPath outP s).state.conversionInProgress = false
      ∧ (ConvertPlnToIfc envP jP plnPath outP s).state.currentJobId = "")
    ∧ ((ConvertIfcToPln envI jI ifcPath outI t).cleanupRan = true
      ∧ (ConvertIfcToPln envI jI ifcPath outI t).state.conversionInProgress = false
      ∧ (ConvertIfcToPln envI jI ifcPath outI t).state.currentJobId = "") := by
  refine ⟨⟨?_, ?_, ?_⟩, ⟨?_, ?_, ?_⟩⟩ <;>
    simp [ConvertPlnToIfc, ConvertIfcToPln, hs, ht]

/-- Witness for `c2_cleanup_always`: a failing PLN→IFC run (save throws)
and a successful IFC→PLN run, both from an idle state. -/
theorem c2_cleanup_always_witness :
    ((ConvertPlnToIfc ⟨none, 0, .ok 0, 0, false, .error .unknown⟩ "J1" "a" "b"
        ⟨false, "", false⟩).cleanupRan = true
      ∧ (ConvertPlnToIfc ⟨none, 0, .ok 0, 0, false, .error .unknown⟩ "J1" "a" "b"
        ⟨false, "", false⟩).state.conversionInProgress = false
      ∧ (ConvertPlnToIfc ⟨none, 0, .ok 0, 0, false, .error .unknown⟩ "J1" "a" "b"
        ⟨false, "", false⟩).state.currentJobId = "")
    ∧ ((ConvertIfcToPln ⟨none, 0, .ok 0, .ok 0⟩ "J2" "c" "d"
        ⟨false, "", false⟩).cleanupRan = true
      ∧ (ConvertIfcToPln ⟨none, 0, .ok 0, .ok 0⟩ "J2" "c" "d"
        ⟨false, "", false⟩).state.conversionInProgress = false
      ∧ (ConvertIfcToPln ⟨none, 0, .ok 0, .ok 0⟩ "J2" "c" "d"
        ⟨false, "", false⟩).state.currentJobId = "") :=
  c2_cleanup_always ⟨none, 0, .ok 0, 0, false, .error .unknown⟩ ⟨none, 0, .ok 0, .ok 0⟩
    "J1" "J2" "a" "c" "b" "d" ⟨false, "", false⟩ ⟨false, "", false⟩ rfl rfl

/-- Progress events forwarded by the `Execute` wrappers are JSON
`type:"progress"` frames: none of them is an error event. -/
theorem filter_isErrorFor_progress (j : String) (l : List (Nat × String)) :
    (l.map (fun pm => WEvent.progress j pm.1 (statusOf pm.1) pm.2)).filter
      (isErrorFor j) = [] := by
  induction l with
  | nil => rfl
  | cons a t ih => simpa [isErrorFor] using ih

/-- C3: every failure attributable to a jobId — an admitted conversion that
fails (either direction) or a start rejected because a job is already
running — broadcasts exactly one `type:"error"` event carrying that jobId;
a successful conversion broadcasts none; after an admitted run the state is
reset to Idle, and a rejected start leaves the running job's state
untouched. -/
theorem c3_single_error_event (envP : PlnEnv) (envI : IfcEnv) (envPok : PlnEnv)
    (jobId plnPath ifcPath outP outI : String) (s t : JobState)
    (hs : s.conversionInProgress = false)
    (ht : t.conversionInProgress = true)
    (hfP : (bodyPln envP).2 = false)
    (hfI : (bodyIfc envI).2 = false)
    (hok : (bodyPln envPok).2 = true) :
    ((ExecuteConvertPlnToIfc envP jobId plnPath outP s).2.2.filter (isErrorFor jobId)).length = 1
    ∧ (ExecuteConvertPlnToIfc envP jobId plnPath outP s).2.1 =
        { conversionInProgress := false, currentJobId := "", shouldCancel := false }
    ∧ ((ExecuteConvertIfcToPln envI jobId ifcPath outI s).2.2.filter (isErrorFor jobId)).length = 1
    ∧ (ExecuteConvertIfcToPln envI jobId ifcPath outI s).2.1 =
        { conversionInProgress := false, currentJobId := "", shouldCancel := false }
    ∧ ((ExecuteConvertPlnToIfc envP jobId plnPath outP t).2.2.filter (isErrorFor jobId)).length = 1
    ∧ (ExecuteConvertPlnToIfc envP jobId plnPath outP t).2.1 = t
    ∧ ((ExecuteConvertPlnToIfc envPok jobId plnPath outP s).2.2.filter (isErrorFor jobId)).length = 0 := by
  refine ⟨?_, ?_, ?_, ?_, ?_, ?_, ?_⟩ <;>
    simp [ExecuteConvertPlnToIfc, ExecuteConvertIfcToPln, ConvertPlnToIfc, ConvertIfcToPln,
      hs, ht, hfP, hfI, hok, List.filter_append, filter_isErrorFor_progress, isErrorFor]

/-- Witness for `c3_single_error_event`: a PLN→IFC run failing on file
access, an IFC→PLN run failing with an open error code, a successful
PLN→IFC environment, an idle state and a busy state. -/
theorem c3_single_error_event_witness :
    ((ExecuteConvertPlnToIfc ⟨none, 1, .ok 0, 0, false, .ok 0⟩ "J1" "a" "b"
        ⟨false, "", false⟩).2.2.filter (isErrorFor "J1")).length = 1
    ∧ (ExecuteConvertPlnToIfc ⟨none, 1, .ok 0, 0, false, .ok 0⟩ "J1" "a" "b"
        ⟨false, "", false⟩).2.1 =
        { conversionInProgress := false, currentJobId := "", shouldCancel := false }
    ∧ ((ExecuteConvertIfcToPln ⟨none, 0, .ok 3, .ok 0⟩ "J1" "c" "d"
        ⟨false, "", false⟩).2.2.filter (isErrorFor "J1")).length = 1
    ∧ (ExecuteConvertIfcToPln ⟨none, 0, .ok 3, .ok 0⟩ "J1" "c" "d"
        ⟨false, "", false⟩).2.1 =
        { conversionInProgress := false, currentJobId := "", shouldCancel := false }
    ∧ ((ExecuteConvertPlnToIfc ⟨none, 1, .ok 0, 0, false, .ok 0⟩ "J1" "a" "b"
        ⟨true, "J0", false⟩).2.2.filter (isErrorFor "J1")).length = 1
    ∧ (ExecuteConvertPlnToIfc ⟨none, 1, .ok 0, 0, false, .ok 0⟩ "J1" "a" "b"
        ⟨true, "J0", false⟩).2.1 = ⟨true, "J0", false⟩
    ∧ ((ExecuteConvertPlnToIfc ⟨none, 0, .ok 0, 0, false, .ok 0⟩ "J1" "a" "b"
        ⟨false, "", false⟩).2.2.filter (isErrorFor "J1")).length = 0 :=
  c3_single_error_event ⟨none, 1, .ok 0, 0, false, .ok 0⟩ ⟨none, 0, .ok 3, .ok 0⟩
    ⟨none, 0, .ok 0, 0, false, .ok 0⟩ "J1" "a" "c" "b" "d"
    ⟨false, "", false⟩ ⟨true, "J0", false⟩ rfl rfl rfl rfl rfl

/-- The FIFO bookkeeping invariant of the session outbound machine:
the transmitted history followed by the pending queue is exactly the
accepted-send history. -/
theorem sess_invariant (acts : List SessAct) (st : SessState)
    (h : st.transmitted ++ st.queue = st.accepted) :
    (sessRun acts st).transmitted ++ (sessRun acts st).queue
      = (sessRun acts st).accepted := by
  induction acts generalizing st with
  | nil => exact h
  | cons a t ih =>
    have : sessRun (a :: t) st = sessRun t (sessStep a st) := rfl
    rw [this]
    refine ih (sessStep a st) ?_
    cases a with
    | send m =>
      by_cases ho : st.sessOpen
      · simp [sessStep, ho, ← h, List.append_assoc]
      · simpa [sessStep, ho] using h
    | complete =>
      cases hq : st.queue with
      | nil => simpa [sessStep, hq] using h
      | cons m rest =>
        by_cases hw : st.writing
        · rw [hq] at h
          simp [sessStep, hq, hw, ← h, List.append_assoc]
        · simpa [sessStep, hq, hw] using h
    | writeError => simpa [sessStep] using h
    | close => simpa [sessStep] using h

/-- C8: per-session outbound FIFO order.  For every sequence of `Send`
calls, write completions, write errors and closes, the sequence of
messages transmitted so far, followed by the still-queued messages, is
exactly the sequence of accepted `Send`s in call order — so transmissions
happen in `Send` order, without reordering or interleaving. -/
theorem c8_fifo (acts : List SessAct) :
    (sessRun acts sessInit).transmitted ++ (sessRun acts sessInit).queue
      = (sessRun acts sessInit).accepted :=
  sess_invariant acts sessInit rfl

/-- Fact: `CancelConversion` never changes `s_conversionInProgress` or
`s_currentJobId`. -/
theorem cancel_preserves (j : String) (s : JobState) :
    (CancelConversion j s).2.conversionInProgress = s.conversionInProgress
    ∧ (CancelConversion j s).2.currentJobId = s.currentJobId := by
  unfold CancelConversion
  split <;> simp

/-- Step runs started from states agreeing on `s_conversionInProgress` and
`s_currentJobId` (but possibly differing on `s_shouldCancel`) emit the same
events and end agreeing on those two fields: no conversion step reads the
cancel flag. -/
theorem runSteps_agree (steps : List HStep) (s1 s2 : JobState)
    (h1 : s1.conversionInProgress = s2.conversionInProgress)
    (h2 : s1.currentJobId = s2.currentJobId) :
    (runSteps steps s1).2 = (runSteps steps s2).2
    ∧ (runSteps steps s1).1.conversionInProgress = (runSteps steps s2).1.conversionInProgress
    ∧ (runSteps steps s1).1.currentJobId = (runSteps steps s2).1.currentJobId := by
  induction steps generalizing s1 s2 with
  | nil => exact ⟨rfl, h1, h2⟩
  | cons h t ih =>
    have key : (stepState h s1).conversionInProgress = (stepState h s2).conversionInProgress
        ∧ (stepState h s1).currentJobId = (stepState h s2).currentJobId := by
      cases h with
      | emit p m => exact ⟨h1, h2⟩
      | writeReset => exact ⟨rfl, rfl⟩
      | cancelReq j =>
        have hg : (!s1.conversionInProgress || s1.currentJobId != j)
            = (!s2.conversionInProgress || s2.currentJobId != j) := by rw [h1, h2]
        simp only [stepState, CancelConversion, hg]
        by_cases hv : (!s2.conversionInProgress || s2.currentJobId != j) = true
        · simp [hv, h1, h2]
        · simp [hv, h1, h2]
    have rec := ih (stepState h s1) (stepState h s2) key.1 key.2
    refine ⟨?_, rec.2.1, rec.2.2⟩
    show stepEvents h ++ (runSteps t (stepState h s1)).2
        = stepEvents h ++ (runSteps t (stepState h s2)).2
    rw [rec.1]

/-- Inserting a `CancelConversion` call anywhere into a step run changes
neither the emitted events nor the final values of
`s_conversionInProgress` / `s_currentJobId`. -/
theorem runSteps_insert_cancel (steps : List HStep) (c : String) (i : Nat)
    (st : JobState) :
    (runSteps (steps.take i ++ HStep.cancelReq c :: steps.drop i) st).2
      = (runSteps steps st).2
    ∧ (runSteps (steps.take i ++ HStep.cancelReq c :: steps.drop i) st).1.conversionInProgress
      = (runSteps steps st).1.conversionInProgress
    ∧ (runSteps (steps.take i ++ HStep.cancelReq c :: steps.drop i) st).1.currentJobId
      = (runSteps steps st).1.currentJobId := by
  induction steps generalizing i st with
  | nil =>
    simp only [List.take_nil, List.drop_nil, List.nil_append]
    have hp := cancel_preserves c st
    exact ⟨rfl, hp.1, hp.2⟩
  | cons h t ih =>
    cases i with
    | zero =>
      simp only [List.take_zero, List.drop_zero, List.nil_append]
      have hp := cancel_preserves c st
      have := runSteps_agree (h :: t) (stepState (HStep.cancelReq c) st) st hp.1 hp.2
      exact ⟨this.1, this.2.1, this.2.2⟩
    | succ i2 =>
      simp only [List.take_succ_cons, List.drop_succ_cons, List.cons_append]
      have rec := ih i2 (stepState h st)
      refine ⟨?_, rec.2.1, rec.2.2⟩
      show stepEvents h ++ _ = stepEvents h ++ _
      rw [rec.1]

/-- Running the canonical step sequence of a conversion body resets the
state and emits exactly the body's events. -/
theorem runSteps_convSteps (evs : List (Nat × String)) (st : JobState) :
    runSteps (convSteps evs) st
      = ({ st with conversionInProgress := false, currentJobId := "" }, evs) := by
  induction evs generalizing st with
  | nil => rfl
  | cons a t ih =>
    have hstep : convSteps (a :: t) = HStep.emit a.1 a.2 :: convSteps t := by
      simp [convSteps]
    rw [hstep]
    simp [runSteps, stepState, stepEvents, ih]

/-- C9: the cancel flag is never read by the conversions.  Interleaving a
`CancelConversion cancelId` call at any point of an admitted
`ConvertPlnToIfc` / `ConvertIfcToPln` run yields the same progress events,
the same returned result and the same final `s_conversionInProgress` /
`s_currentJobId` as the undisturbed run — only `s_shouldCancel` may differ. -/
theorem c9_cancel_no_effect (envP : PlnEnv) (envI : IfcEnv)
    (jobId cancelId plnPath ifcPath outP outI : String) (i j : Nat)
    (s : JobState) (h : s.conversionInProgress = false) :
    ((ConvertPlnToIfcWithCancelAt envP jobId cancelId plnPath outP i s).events
        = (ConvertPlnToIfc envP jobId plnPath outP s).events
      ∧ (ConvertPlnToIfcWithCancelAt envP jobId cancelId plnPath outP i s).success
        = (ConvertPlnToIfc envP jobId plnPath outP s).success
      ∧ (ConvertPlnToIfcWithCancelAt envP jobId cancelId plnPath outP i s).state.conversionInProgress
        = (ConvertPlnToIfc envP jobId plnPath outP s).state.conversionInProgress
      ∧ (ConvertPlnToIfcWithCancelAt envP jobId cancelId plnPath outP i s).state.currentJobId
        = (ConvertPlnToIfc envP jobId plnPath outP s).state.currentJobId)
    ∧ ((ConvertIfcToPlnWithCancelAt envI jobId cancelId ifcPath outI j s).events
        = (ConvertIfcToPln envI jobId ifcPath outI s).events
      ∧ (ConvertIfcToPlnWithCancelAt envI jobId cancelId ifcPath outI j s).success
        = (ConvertIfcToPln envI jobId ifcPath outI s).success
      ∧ (ConvertIfcToPlnWithCancelAt envI jobId cancelId ifcPath outI j s).state.conversionInProgress
        = (ConvertIfcToPln envI jobId ifcPath outI s).state.conversionInProgress
      ∧ (ConvertIfcToPlnWithCancelAt envI jobId cancelId ifcPath outI j s).state.currentJobId
        = (ConvertIfcToPln envI jobId ifcPath outI s).state.currentJobId) := by
  have hins1 := runSteps_insert_cancel (convSteps (bodyPln envP).1) cancelId i (admitState jobId)
  have hins2 := runSteps_insert_cancel (convSteps (bodyIfc envI).1) cancelId j (admitState jobId)
  have hrun1 := runSteps_convSteps (bodyPln envP).1 (admitState jobId)
  have hrun2 := runSteps_convSteps (bodyIfc envI).1 (admitState jobId)
  constructor
  · refine ⟨?_, ?_, ?_, ?_⟩ <;>
      simp [ConvertPlnToIfcWithCancelAt, ConvertPlnToIfc, h,
        hins1.1, hins1.2.1, hins1.2.2, hrun1]
  · refine ⟨?_, ?_, ?_, ?_⟩ <;>
      simp [ConvertIfcToPlnWithCancelAt, ConvertIfcToPln, h,
        hins2.1, hins2.2.1, hins2.2.2, hrun2]

/-- Witness for `c9_cancel_no_effect`: cancel interleaved after two steps of
a successful PLN→IFC run and after zero steps of a failing IFC→PLN run. -/
theorem c9_cancel_no_effect_witness :
    ((ConvertPlnToIfcWithCancelAt ⟨none, 0, .ok 0, 0, false, .ok 0⟩ "J1" "J1" "a" "b" 2
        ⟨false, "", false⟩).events
      = (ConvertPlnToIfc ⟨none, 0, .ok 0, 0, false, .ok 0⟩ "J1" "a" "b"
        ⟨false, "", false⟩).events
    ∧ (ConvertPlnToIfcWithCancelAt ⟨none, 0, .ok 0, 0, false, .ok 0⟩ "J1" "J1" "a" "b" 2
        ⟨false, "", false⟩).success
      = (ConvertPlnToIfc ⟨none, 0, .ok 0, 0, false, .ok 0⟩ "J1" "a" "b"
        ⟨false, "", false⟩).success
    ∧ (ConvertPlnToIfcWithCancelAt ⟨none, 0, .ok 0, 0, false, .ok 0⟩ "J1" "J1" "a" "b" 2
        ⟨false, "", false⟩).state.conversionInProgress
      = (ConvertPlnToIfc ⟨none, 0, .ok 0, 0, false, .ok 0⟩ "J1" "a" "b"
        ⟨false, "", false⟩).state.conversionInProgress
    ∧ (ConvertPlnToIfcWithCancelAt ⟨none, 0, .ok 0, 0, false, .ok 0⟩ "J1" "J1" "a" "b" 2
        ⟨false, "", false⟩).state.currentJobId
      = (ConvertPlnToIfc ⟨none, 0, .ok 0, 0, false, .ok 0⟩ "J1" "a" "b"
        ⟨false, "", false⟩).state.currentJobId)
    ∧ ((ConvertIfcToPlnWithCancelAt ⟨none, 2, .ok 0, .ok 0⟩ "J1" "J2" "c" "d" 0
        ⟨false, "", false⟩).events
      = (ConvertIfcToPln ⟨none, 2, .ok 0, .ok 0⟩ "J1" "c" "d" ⟨false, "", false⟩).events
    ∧ (ConvertIfcToPlnWithCancelAt ⟨none, 2, .ok 0, .ok 0⟩ "J1" "J2" "c" "d" 0
        ⟨false, "", false⟩).success
      = (ConvertIfcToPln ⟨none, 2, .ok 0, .ok 0⟩ "J1" "c" "d" ⟨false, "", false⟩).success
    ∧ (ConvertIfcToPlnWithCancelAt ⟨none, 2, .ok 0, .ok 0⟩ "J1" "J2" "c" "d" 0
        ⟨false, "", false⟩).state.conversionInProgress
      = (ConvertIfcToPln ⟨none, 2, .ok 0, .ok 0⟩ "J1" "c" "d"
        ⟨false, "", false⟩).state.conversionInProgress
    ∧ (ConvertIfcToPlnWithCancelAt ⟨none, 2, .ok 0, .ok 0⟩ "J1" "J2" "c" "d" 0
        ⟨false, "", false⟩).state.currentJobId
      = (ConvertIfcToPln ⟨none, 2, .ok 0, .ok 0⟩ "J1" "c" "d"
        ⟨false, "", false⟩).state.currentJobId) :=
  c9_cancel_no_effect ⟨none, 0, .ok 0, 0, false, .ok 0⟩ ⟨none, 2, .ok 0, .ok 0⟩
    "J1" "J1" "a" "c" "b" "d" 2 0 ⟨false, "", false⟩ rfl

/-- Fact: `hexVal` inverts `hexDigitByte` on digit values. -/
theorem hexVal_hexDigitByte : ∀ x < 16, hexVal (hexDigitByte x) = some x := by decide

/-- Decoding the escape of a single byte `b < 128` prepends `b` to the
decoding of the remainder. -/
theorem decode_escapeChar (b : Nat) (hb : b < 128) (L : List Nat) :
    decodeJsonString (escapeChar b ++ L) = (decodeJsonString L).map (b :: ·) := by
  by_cases h34 : b = 34
  · subst h34
    have he : escapeChar 34 ++ L = 92 :: 34 :: L := rfl
    rw [he, decodeJsonString.eq_def]; simp
  by_cases h92 : b = 92
  · subst h92
    have he : escapeChar 92 ++ L = 92 :: 92 :: L := rfl
    rw [he, decodeJsonString.eq_def]; simp
  by_cases h8 : b = 8
  · subst h8
    have he : escapeChar 8 ++ L = 92 :: 98 :: L := rfl
    rw [he, decodeJsonString.eq_def]; simp
  by_cases h12 : b = 12
  · subst h12
    have he : escapeChar 12 ++ L = 92 :: 102 :: L := rfl
    rw [he, decodeJsonString.eq_def]; simp
  by_cases h10 : b = 10
  · subst h10
    have he : escapeChar 10 ++ L = 92 :: 110 :: L := rfl
    rw [he, decodeJsonString.eq_def]; simp
  by_cases h13 : b = 13
  · subst h13
    have he : escapeChar 13 ++ L = 92 :: 114 :: L := rfl
    rw [he, decodeJsonString.eq_def]; simp
  by_cases h9 : b = 9
  · subst h9
    have he : escapeChar 9 ++ L = 92 :: 116 :: L := rfl
    rw [he, decodeJsonString.eq_def]; simp
  by_cases hlt : b < 32
  · have hs : sByte b < 32 := by
      simp only [sByte, if_pos hb]
      exact_mod_cast hlt
    have hdiv : b / 16 < 16 := by omega
    have hmod : b % 16 < 16 := by omega
    have e1 := hexVal_hexDigitByte (b / 16) hdiv
    have e2 := hexVal_hexDigitByte (b % 16) hmod
    have he : escapeChar b ++ L
        = 92 :: 117 :: 48 :: 48 :: hexDigitByte (b / 16) :: hexDigitByte (b % 16) :: L := by
      simp only [escapeChar, h34, h92, h8, h12, h10, h13, h9, ite_false, if_pos hs,
        hexPayloadBytes, if_pos hb]
      rfl
    rw [he, decodeJsonString.eq_def]
    have h48 : hexVal 48 = some 0 := by decide
    simp only [h48, e1, e2]
    norm_num
    have hcp : 16 * (b / 16) + b % 16 = b := by omega
    rw [hcp, if_neg (by omega : ¬ (55296 ≤ b ∧ b < 57344))]
  · have hs : ¬ sByte b < 32 := by
      simp only [sByte, if_pos hb]
      exact_mod_cast hlt
    have he : escapeChar b ++ L = b :: L := by
      simp only [escapeChar, h34, h92, h8, h12, h10, h13, h9, ite_false, if_neg hs]
      rfl
    rw [he, decodeJsonString.eq_def]
    simp [h92, hlt]

/-- C4 (amended): for every input whose bytes are all below 0x80 — which
includes double quotes, backslashes and all control bytes below 0x20 —
decoding `EscapeJson`'s output with a standard JSON string decoder yields
exactly the original input. -/
theorem c4_roundtrip_ascii (s : List Nat) (h : ∀ b ∈ s, b < 128) :
    decodeJsonString (EscapeJson s) = some s := by
  induction s with
  | nil => rfl
  | cons b t ih =>
    have hb : b < 128 := h b (List.mem_cons_self b t)
    have ht : ∀ x ∈ t, x < 128 := fun x hx => h x (List.mem_cons_of_mem b hx)
    rw [show EscapeJson (b :: t) = escapeChar b ++ EscapeJson t from rfl,
      decode_escapeChar b hb, ih ht]
    rfl

/-- Witness for `c4_roundtrip_ascii`: a string containing a double quote, a
backslash, a newline and a raw control byte round-trips. -/
theorem c4_roundtrip_ascii_witness :
    decodeJsonString (EscapeJson [34, 92, 10, 3]) = some [34, 92, 10, 3] :=
  c4_roundtrip_ascii [34, 92, 10, 3] (by decide)

/-- C4 counterexample: the byte 0x80 is escaped through the signed-char
`c < 0x20` branch as the ten bytes `\x5cuffffff80`; a standard JSON decoder
reads `\x5cuffff` (U+FFFF) followed by the literal characters `f f 8 0`, so
the round-trip fails for inputs containing bytes at or above 0x80. -/
theorem c4_highbyte_counterexample :
    EscapeJson [128] = [92, 117, 102, 102, 102, 102, 102, 102, 56, 48]
    ∧ decodeJsonString (EscapeJson [128]) = some [65535, 102, 102, 56, 48]
    ∧ decodeJsonString (EscapeJson [128]) ≠ some [128] := by
  refine ⟨by decide, by decide, by decide⟩

/-- C7: malformed frame handling.  For every inbound frame from which no
`command` field can be extracted (key absent, quotes not found, or empty
value), `HandleCommand` dispatches nothing and broadcasts no event, and
`OnRead` with a successful read leaves the open flag untouched and issues
the next read — the connection stays usable. -/
theorem c7_malformed_no_dispatch (payload : List Char) (hasCallback mopen : Bool)
    (h : extractFieldOr payload cmdKey = []) :
    HandleCommand hasCallback payload = (none, [])
    ∧ OnRead ReadErr.ok mopen hasCallback payload = (mopen, true, (none, [])) := by
  have h1 : HandleCommand hasCallback payload = (none, []) := by
    simp [HandleCommand, h]
  exact ⟨h1, by simp [OnRead, h1]⟩

/-- Witness for `c7_malformed_no_dispatch`: a frame with a jobId but no
`command` field. -/
theorem c7_malformed_no_dispatch_witness :
    HandleCommand true ("\x7b\"jobId\":\"J\"\x7d".data) = (none, [])
    ∧ OnRead ReadErr.ok true true ("\x7b\"jobId\":\"J\"\x7d".data)
        = (true, true, (none, [])) :=
  c7_malformed_no_dispatch ("\x7b\"jobId\":\"J\"\x7d".data) true true (by decide)

theorem isPrefixOf_eq_true_iff (l1 l2 : List Char) : l1.isPrefixOf l2 = true ↔ l1 <+: l2 :=
  List.isPrefixOf_iff_prefix

theorem strFind_at_head (s pat : List Char) (h : pat <+: s) : strFind s pat = some 0 := by
  rw [strFind.eq_def, if_pos ((isPrefixOf_eq_true_iff pat s).mpr h)]

theorem strFind_cons_of_not (c : Char) (t pat : List Char) (h : ¬ pat <+: (c :: t)) :
    strFind (c :: t) pat = (strFind t pat).map (· + 1) := by
  rw [strFind.eq_def, if_neg (fun hb => h ((isPrefixOf_eq_true_iff pat (c :: t)).mp hb))]

theorem strFind_nil_none (pat : List Char) (h : pat ≠ []) : strFind [] pat = none := by
  rw [strFind.eq_def]
  cases pat with
  | nil => exact absurd rfl h
  | cons a t => simp

theorem strFind_append_skip (q : Char) (pt seg rest : List Char) (hq : q ∉ seg) :
    strFind (seg ++ rest) (q :: pt) = (strFind rest (q :: pt)).map (· + seg.length) := by
  induction seg with
  | nil =>
    cases h : strFind rest (q :: pt) <;> simp [h]
  | cons a sg ih =>
    have ha : ¬ q = a := fun h => hq (h ▸ List.mem_cons_self a sg)
    have hsg : q ∉ sg := fun h => hq (List.mem_cons_of_mem a h)
    have hnp : ¬ (q :: pt) <+: (a :: (sg ++ rest)) := by
      intro hp
      exact ha (List.cons_prefix_cons.mp hp).1
    rw [List.cons_append, strFind_cons_of_not _ _ _ hnp, ih hsg]
    cases strFind rest (q :: pt) <;> simp <;> omega



theorem key_prefix_val (k : List Char) : ∀ (c rest : List Char), '"' ∉ k → '"' ∉ c →
    (((k ++ ['"']) <+: (c ++ '"' :: rest)) ↔ c = k) := by
  induction k with
  | nil =>
    intro c rest hk hc
    cases c with
    | nil => simp
    | cons a c2 =>
      have ha : ¬ ('"' : Char) = a := fun h => hc (h ▸ List.mem_cons_self a c2)
      simp only [List.nil_append, List.cons_append, List.cons_prefix_cons]
      constructor
      · rintro ⟨h1, -⟩; exact absurd h1 ha
      · intro h; cases h
  | cons b k2 ih =>
    intro c rest hk hc
    have hbk : ¬ b = '"' := fun h => hk (h ▸ List.mem_cons_self b k2)
    have hk2 : '"' ∉ k2 := fun h => hk (List.mem_cons_of_mem b h)
    cases c with
    | nil =>
      simp only [List.nil_append, List.cons_append, List.cons_prefix_cons]
      constructor
      · rintro ⟨h1, -⟩; exact absurd h1 hbk
      · intro h; cases h
    | cons a c2 =>
      have hc2 : '"' ∉ c2 := fun h => hc (List.mem_cons_of_mem a h)
      simp only [List.cons_append, List.cons_prefix_cons]
      rw [ih c2 rest hk2 hc2]
      constructor
      · rintro ⟨h1, h2⟩; rw [h1, h2]
      · intro h
        injection h with h1 h2
        exact ⟨h1.symm, h2⟩

theorem key_prefix_bare (k c : List Char) (hc : '"' ∉ c) : ¬ ((k ++ ['"']) <+: c) := by
  intro h
  exact hc (h.subset (by simp))

theorem qcat_cons (c : List Char) (cs : List (List Char)) (h : cs ≠ []) :
    qcat (c :: cs) = c ++ '"' :: qcat cs := by
  cases cs with
  | nil => exact absurd rfl h
  | cons d ds => rfl

theorem key_prefix_qcat (k c : List Char) (cs : List (List Char)) (hk : '"' ∉ k)
    (hc : '"' ∉ c) (hcs : cs ≠ []) :
    ((k ++ ['"']) <+: qcat (c :: cs)) ↔ c = k := by
  rw [qcat_cons c cs hcs]
  exact key_prefix_val k c (qcat cs) hk hc

theorem strFind_qcat_found (k c : List Char) (cs : List (List Char)) (hc : '"' ∉ c)
    (hcs : cs ≠ []) (hm : (k ++ ['"']) <+: qcat cs) :
    strFind (qcat (c :: cs)) ('"' :: (k ++ ['"'])) = some c.length := by
  rw [qcat_cons c cs hcs, strFind_append_skip '"' _ c _ hc,
    strFind_at_head _ _ (List.cons_prefix_cons.mpr ⟨rfl, hm⟩)]
  simp

theorem strFind_qcat_skip (k c : List Char) (cs : List (List Char)) (hc : '"' ∉ c)
    (hcs : cs ≠ []) (hm : ¬ (k ++ ['"']) <+: qcat cs) :
    strFind (qcat (c :: cs)) ('"' :: (k ++ ['"']))
      = (strFind (qcat cs) ('"' :: (k ++ ['"']))).map (· + (c.length + 1)) := by
  rw [qcat_cons c cs hcs, strFind_append_skip '"' _ c _ hc,
    strFind_cons_of_not '"' _ _ (fun hp => hm (List.cons_prefix_cons.mp hp).2)]
  cases strFind (qcat cs) ('"' :: (k ++ ['"'])) <;> simp <;> omega

theorem strFind_qcat_last (k c : List Char) (hc : '"' ∉ c) :
    strFind (qcat [c]) ('"' :: (k ++ ['"'])) = none := by
  show strFind c ('"' :: (k ++ ['"'])) = none
  have h1 := strFind_append_skip '"' (k ++ ['"']) c [] hc
  rw [List.append_nil] at h1
  rw [h1, strFind_nil_none _ (by simp)]
  rfl

theorem qcat_drop (pre rest : List (List Char)) (hpre : pre ≠ []) (hrest : rest ≠ []) :
    (qcat (pre ++ rest)).drop (qlen pre) = '"' :: qcat rest := by
  induction pre with
  | nil => exact absurd rfl hpre
  | cons c pre2 ih =>
    cases pre2 with
    | nil =>
      rw [show ([c] ++ rest) = c :: rest from rfl, qcat_cons c rest hrest,
        show qlen [c] = c.length by simp [qlen]]
      exact List.drop_left' rfl
    | cons d pre3 =>
      have h1 : qcat ((c :: d :: pre3) ++ rest) = c ++ '"' :: qcat ((d :: pre3) ++ rest) :=
        qcat_cons _ _ (by simp)
      have hq : qlen (c :: d :: pre3) = (c.length + 1) + qlen (d :: pre3) := by
        simp [qlen]
        omega
      have h2 : c ++ '"' :: qcat ((d :: pre3) ++ rest)
          = (c ++ ['"']) ++ qcat ((d :: pre3) ++ rest) := by simp
      rw [h1, hq, h2, show (c.length + 1) + qlen (d :: pre3)
          = (c ++ ['"']).length + qlen (d :: pre3) by simp,
        ← List.drop_drop, List.drop_left]
      exact ih (by simp)


theorem extractAt_of_drop (payload kname v rest : List Char) (kpos : Nat)
    (hdrop : payload.drop kpos = '"' :: kname ++ '"' :: ':' :: '"' :: (v ++ '"' :: rest))
    (hkc : ':' ∉ kname) (hv : '"' ∉ v) :
    extractAt payload (some kpos) = some v := by
  have hseg1 : ('"' :: kname ++ '"' :: ':' :: '"' :: (v ++ '"' :: rest))
      = ('"' :: kname ++ ['"']) ++ (':' :: '"' :: (v ++ '"' :: rest)) := by simp
  have hnc : (':' : Char) ∉ ('"' :: kname ++ ['"']) := by
    simp [List.mem_cons, List.mem_append]
    intro h
    exact absurd h hkc
  have hA : strFind (payload.drop kpos) [':'] = some (kname.length + 2) := by
    rw [hdrop, hseg1, strFind_append_skip ':' [] _ _ hnc,
      strFind_at_head _ _ (List.cons_prefix_cons.mpr ⟨rfl, List.nil_prefix⟩)]
    simp
  have hdrop2 : payload.drop (kname.length + 2 + kpos)
      = ':' :: '"' :: (v ++ '"' :: rest) := by
    rw [Nat.add_comm (kname.length + 2) kpos, ← List.drop_drop, hdrop, hseg1]
    exact List.drop_left' (by simp)
  have hB : strFind (payload.drop (kname.length + 2 + kpos)) ['"'] = some 1 := by
    rw [hdrop2,
      strFind_cons_of_not _ _ _ (fun hp => by
        have := (List.cons_prefix_cons.mp hp).1
        simp at this),
      strFind_at_head _ _ (List.cons_prefix_cons.mpr ⟨rfl, List.nil_prefix⟩)]
    rfl
  have hdrop3 : payload.drop (1 + (kname.length + 2 + kpos) + 1)
      = v ++ '"' :: rest := by
    have harith : 1 + (kname.length + 2 + kpos) + 1 = kpos + (kname.length + 4) := by omega
    rw [harith, ← List.drop_drop, hdrop, hseg1]
    have hlen : (('"' :: kname ++ ['"']) ++ [':', '"']).length = kname.length + 4 := by simp
    rw [show (('"' :: kname ++ ['"']) ++ (':' :: '"' :: (v ++ '"' :: rest)))
        = (('"' :: kname ++ ['"']) ++ [':', '"']) ++ (v ++ '"' :: rest) by simp]
    exact List.drop_left' hlen
  have hC : strFind (payload.drop (1 + (kname.length + 2 + kpos) + 1)) ['"']
      = some v.length := by
    rw [hdrop3, strFind_append_skip '"' [] v _ hv,
      strFind_at_head _ _ (List.cons_prefix_cons.mpr ⟨rfl, List.nil_prefix⟩)]
    simp
  simp [extractAt, findFromOpt, hA, hB, hC]
  have harith2 : v.length + (1 + (kname.length + 2 + kpos) + 1) - (1 + (kname.length + 2 + kpos)) - 1
      = v.length := by omega
  rw [harith2, hdrop3, List.take_left' rfl]


theorem strFind_qcat_walk_none (k : List Char) (hk : '"' ∉ k) :
    ∀ (cs : List (List Char)), (∀ c ∈ cs, '"' ∉ c) → (∀ c ∈ cs, c ≠ k) →
      strFind (qcat cs) ('"' :: (k ++ ['"'])) = none := by
  intro cs
  induction cs with
  | nil =>
    intro _ _
    exact strFind_nil_none _ (by simp)
  | cons c cs2 ih =>
    intro hq hn
    cases cs2 with
    | nil => exact strFind_qcat_last k c (hq c (List.mem_cons_self c []))
    | cons d cs3 =>
      have hcq : '"' ∉ c := hq c (List.mem_cons_self c _)
      have hdq : '"' ∉ d := hq d (List.mem_cons_of_mem c (List.mem_cons_self d cs3))
      have hm : ¬ (k ++ ['"']) <+: qcat (d :: cs3) := by
        cases cs3 with
        | nil => exact key_prefix_bare k d hdq
        | cons e cs4 =>
          rw [key_prefix_qcat k d (e :: cs4) hk hdq (by simp)]
          exact hn d (List.mem_cons_of_mem c (List.mem_cons_self d _))
      rw [strFind_qcat_skip k c (d :: cs3) hcq (by simp) hm,
        ih (fun x hx => hq x (List.mem_cons_of_mem c hx))
          (fun x hx => hn x (List.mem_cons_of_mem c hx))]
      rfl

theorem strFind_qcat_walk_found (k : List Char) (hk : '"' ∉ k) :
    ∀ (pre : List (List Char)) (cs : List (List Char)), pre ≠ [] → cs ≠ [] →
      (∀ c ∈ pre, '"' ∉ c) → (∀ c ∈ pre.tail, c ≠ k) →
      (k ++ ['"']) <+: qcat cs →
      strFind (qcat (pre ++ cs)) ('"' :: (k ++ ['"'])) = some (qlen pre) := by
  intro pre
  induction pre with
  | nil => intro cs h; exact absurd rfl h
  | cons c pre2 ih =>
    intro cs _ hcs hq hn hm
    cases pre2 with
    | nil =>
      rw [show ([c] ++ cs) = c :: cs from rfl]
      rw [strFind_qcat_found k c cs (hq c (List.mem_cons_self c _)) hcs hm]
      simp [qlen]
    | cons d pre3 =>
      have hcq : '"' ∉ c := hq c (List.mem_cons_self c _)
      have hdq : '"' ∉ d := hq d (List.mem_cons_of_mem c (List.mem_cons_self d pre3))
      have hnext : ¬ (k ++ ['"']) <+: qcat ((d :: pre3) ++ cs) := by
        rw [show ((d :: pre3) ++ cs) = d :: (pre3 ++ cs) from rfl,
          key_prefix_qcat k d (pre3 ++ cs) hk hdq (by cases pre3 <;> simp [hcs])]
        exact hn d (List.mem_cons_self d pre3)
      rw [show ((c :: d :: pre3) ++ cs) = c :: ((d :: pre3) ++ cs) from rfl,
        strFind_qcat_skip k c ((d :: pre3) ++ cs) hcq (by simp [hcs]) hnext,
        ih cs (by simp) hcs (fun x hx => hq x (List.mem_cons_of_mem c hx))
          (fun x hx => hn x (List.mem_cons_of_mem d hx)) hm]
      have : qlen (c :: d :: pre3) = qlen (d :: pre3) + (c.length + 1) := by
        simp [qlen]
        omega
      simp [this]


theorem extractAt_none (payload : List Char) : extractAt payload none = none := rfl

theorem payload_chunks (srcKey outKey : String) (p o : List Char) :
    payloadFor srcKey outKey p o
      = qcat (pre9 ++ [srcKey.data, ":".data, p, ",".data,
          outKey.data, ":".data, o, "\x7d".data]) := rfl

theorem find_src (srcKey outKey p o : List Char)
    (hsq : '"' ∉ srcKey) (hsc : ':' ∉ srcKey) (hp : '"' ∉ p)
    (hall : ∀ c ∈ pre9, c ≠ srcKey) :
    strFind (qcat (pre9 ++ [srcKey, ":".data, p, ",".data, outKey, ":".data, o, "\x7d".data]))
        ('"' :: (srcKey ++ ['"'])) = some (qlen pre9)
    ∧ extractAt (qcat (pre9 ++ [srcKey, ":".data, p, ",".data, outKey, ":".data, o, "\x7d".data]))
        (some (qlen pre9)) = some p := by
  constructor
  · refine strFind_qcat_walk_found srcKey hsq pre9 _ (by decide) (by simp)
      (by decide) (fun c hc => hall c (List.mem_of_mem_tail hc)) ?_
    exact (key_prefix_qcat srcKey srcKey _ hsq hsq (by simp)).mpr rfl
  · have hdrop : (qcat (pre9 ++ [srcKey, ":".data, p, ",".data, outKey, ":".data, o,
          "\x7d".data])).drop (qlen pre9)
        = '"' :: (srcKey ++ '"' :: ':' :: '"' :: (p ++ '"' ::
            qcat [",".data, outKey, ":".data, o, "\x7d".data])) := by
      rw [qcat_drop pre9 _ (by simp [pre9]) (by simp)]
      rfl
    exact extractAt_of_drop _ srcKey p _ (qlen pre9) hdrop hsc hp

theorem find_out (srcKey outKey p o : List Char)
    (hsq : '"' ∉ srcKey) (hoq : '"' ∉ outKey) (hoc : ':' ∉ outKey)
    (hp : '"' ∉ p) (ho : '"' ∉ o)
    (hall : ∀ c ∈ pre9 ++ [":".data, ",".data], c ≠ outKey)
    (hsno : srcKey ≠ outKey) (hpno : p ≠ outKey) :
    strFind (qcat (pre9 ++ [srcKey, ":".data, p, ",".data, outKey, ":".data, o, "\x7d".data]))
        ('"' :: (outKey ++ ['"']))
      = some (qlen (pre9 ++ [srcKey, ":".data, p, ",".data]))
    ∧ extractAt (qcat (pre9 ++ [srcKey, ":".data, p, ",".data, outKey, ":".data, o, "\x7d".data]))
        (some (qlen (pre9 ++ [srcKey, ":".data, p, ",".data]))) = some o := by
  have hrw : qcat (pre9 ++ [srcKey, ":".data, p, ",".data, outKey, ":".data, o, "\x7d".data])
      = qcat ((pre9 ++ [srcKey, ":".data, p, ",".data]) ++
          [outKey, ":".data, o, "\x7d".data]) := by simp
  have hq13 : ∀ c ∈ pre9 ++ [srcKey, ":".data, p, ",".data], '"' ∉ c := by
    refine List.forall_mem_append.mpr ⟨by decide, ?_⟩
    refine List.forall_mem_cons.mpr ⟨hsq, ?_⟩
    refine List.forall_mem_cons.mpr ⟨by decide, ?_⟩
    refine List.forall_mem_cons.mpr ⟨hp, ?_⟩
    refine List.forall_mem_cons.mpr ⟨by decide, ?_⟩
    intro c hc
    exact absurd hc (List.not_mem_nil c)
  constructor
  · rw [hrw]
    refine strFind_qcat_walk_found outKey hoq _ _ (by simp [pre9]) (by simp) hq13 ?_ ?_
    · have htl : (pre9 ++ [srcKey, ":".data, p, ",".data]).tail
          = pre9.tail ++ [srcKey, ":".data, p, ",".data] := by
        simp [pre9]
      rw [htl]
      refine List.forall_mem_append.mpr ⟨?_, ?_⟩
      · intro c hc
        exact hall c (List.mem_append_left _ (List.mem_of_mem_tail hc))
      refine List.forall_mem_cons.mpr ⟨hsno, ?_⟩
      refine List.forall_mem_cons.mpr ⟨hall _ (by simp), ?_⟩
      refine List.forall_mem_cons.mpr ⟨hpno, ?_⟩
      refine List.forall_mem_cons.mpr ⟨hall _ (by simp), ?_⟩
      intro c hc
      exact absurd hc (List.not_mem_nil c)
    · exact (key_prefix_qcat outKey outKey _ hoq hoq (by simp)).mpr rfl
  · have hdrop : (qcat (pre9 ++ [srcKey, ":".data, p, ",".data, outKey, ":".data, o,
          "\x7d".data])).drop (qlen (pre9 ++ [srcKey, ":".data, p, ",".data]))
        = '"' :: (outKey ++ '"' :: ':' :: '"' :: (o ++ '"' :: "\x7d".data)) := by
      rw [hrw, qcat_drop _ _ (by simp [pre9]) (by simp)]
      rfl
    exact extractAt_of_drop _ outKey o _ _ hdrop hoc ho

theorem find_none (srcKey outKey p o kname : List Char)
    (hkq : '"' ∉ kname) (hsq : '"' ∉ srcKey) (hoq : '"' ∉ outKey)
    (hp : '"' ∉ p) (ho : '"' ∉ o)
    (hall : ∀ c ∈ pre9 ++ [":".data, ",".data, "\x7d".data], c ≠ kname)
    (hsk : srcKey ≠ kname) (hok : outKey ≠ kname)
    (hpk : p ≠ kname) (hob : o ≠ kname) :
    strFind (qcat (pre9 ++ [srcKey, ":".data, p, ",".data, outKey, ":".data, o, "\x7d".data]))
        ('"' :: (kname ++ ['"'])) = none := by
  refine strFind_qcat_walk_none kname hkq _ ?_ ?_
  · refine List.forall_mem_append.mpr ⟨by decide, ?_⟩
    refine List.forall_mem_cons.mpr ⟨hsq, ?_⟩
    refine List.forall_mem_cons.mpr ⟨by decide, ?_⟩
    refine List.forall_mem_cons.mpr ⟨hp, ?_⟩
    refine List.forall_mem_cons.mpr ⟨by decide, ?_⟩
    refine List.forall_mem_cons.mpr ⟨hoq, ?_⟩
    refine List.forall_mem_cons.mpr ⟨by decide, ?_⟩
    refine List.forall_mem_cons.mpr ⟨ho, ?_⟩
    refine List.forall_mem_cons.mpr ⟨by decide, ?_⟩
    intro c hc
    exact absurd hc (List.not_mem_nil c)
  · refine List.forall_mem_append.mpr ⟨?_, ?_⟩
    · intro c hc
      exact hall c (List.mem_append_left _ hc)
    refine List.forall_mem_cons.mpr ⟨hsk, ?_⟩
    refine List.forall_mem_cons.mpr ⟨hall _ (by simp), ?_⟩
    refine List.forall_mem_cons.mpr ⟨hpk, ?_⟩
    refine List.forall_mem_cons.mpr ⟨hall _ (by simp), ?_⟩
    refine List.forall_mem_cons.mpr ⟨hok, ?_⟩
    refine List.forall_mem_cons.mpr ⟨hall _ (by simp), ?_⟩
    refine List.forall_mem_cons.mpr ⟨hob, ?_⟩
    refine List.forall_mem_cons.mpr ⟨hall _ (by simp), ?_⟩
    intro c hc
    exact absurd hc (List.not_mem_nil c)

theorem plnK1_eq : plnK1 = '"' :: ("plnPath".data ++ ['"']) := by decide
theorem plnK2_eq : plnK2 = '"' :: ("pln_path".data ++ ['"']) := by decide
theorem ifcK1_eq : ifcK1 = '"' :: ("ifcPath".data ++ ['"']) := by decide
theorem ifcK2_eq : ifcK2 = '"' :: ("ifc_path".data ++ ['"']) := by decide
theorem outK1_eq : outK1 = '"' :: ("outputPath".data ++ ['"']) := by decide
theorem outK2_eq : outK2 = '"' :: ("output_path".data ++ ['"']) := by decide

theorem handleStart_shape1 (jobId : String) (p o : List Char)
    (hp : '"' ∉ p) (ho : '"' ∉ o) (hp0 : p ≠ []) (ho0 : o ≠ [])
    (hpn1 : p ≠ "plnPath".data) (hpn2 : p ≠ "pln_path".data)
    (hpn3 : p ≠ "ifcPath".data) (hpn4 : p ≠ "ifc_path".data)
    (hpn5 : p ≠ "outputPath".data) (hpn6 : p ≠ "output_path".data)
    (hon1 : o ≠ "plnPath".data) (hon2 : o ≠ "pln_path".data)
    (hon3 : o ≠ "ifcPath".data) (hon4 : o ≠ "ifc_path".data)
    (hon5 : o ≠ "outputPath".data) (hon6 : o ≠ "output_path".data) :
    handleStartConversion jobId (payloadFor "plnPath" "outputPath" p o)
      = .dispatch true p o := by
  have hchunks := payload_chunks "plnPath" "outputPath" p o
  have hsrc := find_src "plnPath".data "outputPath".data p o (by decide) (by decide) hp
    (by decide)
  have hfsrc : strFind (payloadFor "plnPath" "outputPath" p o) plnK1 = some (qlen pre9) := by
    rw [hchunks, plnK1_eq]; exact hsrc.1
  have hkposPln : keyPosOf (payloadFor "plnPath" "outputPath" p o) plnK1 plnK2 = some (qlen pre9) := by
    simp [keyPosOf, hfsrc]
  have hexsrc : extractAt (payloadFor "plnPath" "outputPath" p o) (some (qlen pre9)) = some p := by
    rw [hchunks]; exact hsrc.2
  have hout := find_out "plnPath".data "outputPath".data p o (by decide) (by decide)
    (by decide) hp ho (by decide) (by decide) hpn5
  have hfout : strFind (payloadFor "plnPath" "outputPath" p o) outK1
      = some (qlen (pre9 ++ ["plnPath".data, ":".data, p, ",".data])) := by
    rw [hchunks, outK1_eq]; exact hout.1
  have hkposOut : keyPosOf (payloadFor "plnPath" "outputPath" p o) outK1 outK2
      = some (qlen (pre9 ++ ["plnPath".data, ":".data, p, ",".data])) := by
    simp [keyPosOf, hfout]
  have hexout : extractAt (payloadFor "plnPath" "outputPath" p o)
      (some (qlen (pre9 ++ ["plnPath".data, ":".data, p, ",".data]))) = some o := by
    rw [hchunks]; exact hout.2
  simp only [handleStartConversion, hkposPln, hexsrc, hkposOut, hexout]
  simp [hp0, ho0]

theorem handleStart_shape2 (jobId : String) (p o : List Char)
    (hp : '"' ∉ p) (ho : '"' ∉ o) (hp0 : p ≠ []) (ho0 : o ≠ [])
    (hpn1 : p ≠ "plnPath".data) (hpn2 : p ≠ "pln_path".data)
    (hpn3 : p ≠ "ifcPath".data) (hpn4 : p ≠ "ifc_path".data)
    (hpn5 : p ≠ "outputPath".data) (hpn6 : p ≠ "output_path".data)
    (hon1 : o ≠ "plnPath".data) (hon2 : o ≠ "pln_path".data)
    (hon3 : o ≠ "ifcPath".data) (hon4 : o ≠ "ifc_path".data)
    (hon5 : o ≠ "outputPath".data) (hon6 : o ≠ "output_path".data) :
    handleStartConversion jobId (payloadFor "pln_path" "outputPath" p o)
      = .dispatch true p o := by
  have hchunks := payload_chunks "pln_path" "outputPath" p o
  have hfn1 : strFind (payloadFor "pln_path" "outputPath" p o) plnK1 = none := by
    rw [hchunks, plnK1_eq]
    exact find_none "pln_path".data "outputPath".data p o "plnPath".data (by decide) (by decide)
      (by decide) hp ho (by decide) (by decide) (by decide) hpn1 hon1
  have hsrc := find_src "pln_path".data "outputPath".data p o (by decide) (by decide) hp
    (by decide)
  have hfsrc : strFind (payloadFor "pln_path" "outputPath" p o) plnK2 = some (qlen pre9) := by
    rw [hchunks, plnK2_eq]; exact hsrc.1
  have hkposPln : keyPosOf (payloadFor "pln_path" "outputPath" p o) plnK1 plnK2 = some (qlen pre9) := by
    simp [keyPosOf, hfn1, hfsrc]
  have hexsrc : extractAt (payloadFor "pln_path" "outputPath" p o) (some (qlen pre9)) = some p := by
    rw [hchunks]; exact hsrc.2
  have hout := find_out "pln_path".data "outputPath".data p o (by decide) (by decide)
    (by decide) hp ho (by decide) (by decide) hpn5
  have hfout : strFind (payloadFor "pln_path" "outputPath" p o) outK1
      = some (qlen (pre9 ++ ["pln_path".data, ":".data, p, ",".data])) := by
    rw [hchunks, outK1_eq]; exact hout.1
  have hkposOut : keyPosOf (payloadFor "pln_path" "outputPath" p o) outK1 outK2
      = some (qlen (pre9 ++ ["pln_path".data, ":".data, p, ",".data])) := by
    simp [keyPosOf, hfout]
  have hexout : extractAt (payloadFor "pln_path" "outputPath" p o)
      (some (qlen (pre9 ++ ["pln_path".data, ":".data, p, ",".data]))) = some o := by
    rw [hchunks]; exact hout.2
  simp only [handleStartConversion, hkposPln, hexsrc, hkposOut, hexout]
  simp [hp0, ho0]

theorem handleStart_shape3 (jobId : String) (p o : List Char)
    (hp : '"' ∉ p) (ho : '"' ∉ o) (hp0 : p ≠ []) (ho0 : o ≠ [])
    (hpn1 : p ≠ "plnPath".data) (hpn2 : p ≠ "pln_path".data)
    (hpn3 : p ≠ "ifcPath".data) (hpn4 : p ≠ "ifc_path".data)
    (hpn5 : p ≠ "outputPath".data) (hpn6 : p ≠ "output_path".data)
    (hon1 : o ≠ "plnPath".data) (hon2 : o ≠ "pln_path".data)
    (hon3 : o ≠ "ifcPath".data) (hon4 : o ≠ "ifc_path".data)
    (hon5 : o ≠ "outputPath".data) (hon6 : o ≠ "output_path".data) :
    handleStartConversion jobId (payloadFor "ifcPath" "outputPath" p o)
      = .dispatch false p o := by
  have hchunks := payload_chunks "ifcPath" "outputPath" p o
  have hfn1 : strFind (payloadFor "ifcPath" "outputPath" p o) plnK1 = none := by
    rw [hchunks, plnK1_eq]
    exact find_none "ifcPath".data "outputPath".data p o "plnPath".data (by decide) (by decide)
      (by decide) hp ho (by decide) (by decide) (by decide) hpn1 hon1
  have hfn2 : strFind (payloadFor "ifcPath" "outputPath" p o) plnK2 = none := by
    rw [hchunks, plnK2_eq]
    exact find_none "ifcPath".data "outputPath".data p o "pln_path".data (by decide) (by decide)
      (by decide) hp ho (by decide) (by decide) (by decide) hpn2 hon2
  have hsrc := find_src "ifcPath".data "outputPath".data p o (by decide) (by decide) hp
    (by decide)
  have hfsrc : strFind (payloadFor "ifcPath" "outputPath" p o) ifcK1 = some (qlen pre9) := by
    rw [hchunks, ifcK1_eq]; exact hsrc.1
  have hkposPln : keyPosOf (payloadFor "ifcPath" "outputPath" p o) plnK1 plnK2 = none := by
    simp [keyPosOf, hfn1, hfn2]
  have hkposIfc : keyPosOf (payloadFor "ifcPath" "outputPath" p o) ifcK1 ifcK2 = some (qlen pre9) := by
    simp [keyPosOf, hfsrc]
  have hexsrc : extractAt (payloadFor "ifcPath" "outputPath" p o) (some (qlen pre9)) = some p := by
    rw [hchunks]; exact hsrc.2
  have hout := find_out "ifcPath".data "outputPath".data p o (by decide) (by decide)
    (by decide) hp ho (by decide) (by decide) hpn5
  have hfout : strFind (payloadFor "ifcPath" "outputPath" p o) outK1
      = some (qlen (pre9 ++ ["ifcPath".data, ":".data, p, ",".data])) := by
    rw [hchunks, outK1_eq]; exact hout.1
  have hkposOut : keyPosOf (payloadFor "ifcPath" "outputPath" p o) outK1 outK2
      = some (qlen (pre9 ++ ["ifcPath".data, ":".data, p, ",".data])) := by
    simp [keyPosOf, hfout]
  have hexout : extractAt (payloadFor "ifcPath" "outputPath" p o)
      (some (qlen (pre9 ++ ["ifcPath".data, ":".data, p, ",".data]))) = some o := by
    rw [hchunks]; exact hout.2
  simp only [handleStartConversion, hkposPln, extractAt_none, hkposIfc, hexsrc,
    hkposOut, hexout]
  simp [hp0, ho0]

theorem handleStart_shape4 (jobId : String) (p o : List Char)
    (hp : '"' ∉ p) (ho : '"' ∉ o) (hp0 : p ≠ []) (ho0 : o ≠ [])
    (hpn1 : p ≠ "plnPath".data) (hpn2 : p ≠ "pln_path".data)
    (hpn3 : p ≠ "ifcPath".data) (hpn4 : p ≠ "ifc_path".data)
    (hpn5 : p ≠ "outputPath".data) (hpn6 : p ≠ "output_path".data)
    (hon1 : o ≠ "plnPath".data) (hon2 : o ≠ "pln_path".data)
    (hon3 : o ≠ "ifcPath".data) (hon4 : o ≠ "ifc_path".data)
    (hon5 : o ≠ "outputPath".data) (hon6 : o ≠ "output_path".data) :
    handleStartConversion jobId (payloadFor "ifc_path" "outputPath" p o)
      = .dispatch false p o := by
  have hchunks := payload_chunks "ifc_path" "outputPath" p o
  have hfn1 : strFind (payloadFor "ifc_path" "outputPath" p o) plnK1 = none := by
    rw [hchunks, plnK1_eq]
    exact find_none "ifc_path".data "outputPath".data p o "plnPath".data (by decide) (by decide)
      (by decide) hp ho (by decide) (by decide) (by decide) hpn1 hon1
  have hfn2 : strFind (payloadFor "ifc_path" "outputPath" p o) plnK2 = none := by
    rw [hchunks, plnK2_eq]
    exact find_none "ifc_path".data "outputPath".data p o "pln_path".data (by decide) (by decide)
      (by decide) hp ho (by decide) (by decide) (by decide) hpn2 hon2
  have hfn3 : strFind (payloadFor "ifc_path" "outputPath" p o) ifcK1 = none := by
    rw [hchunks, ifcK1_eq]
    exact find_none "ifc_path".data "outputPath".data p o "ifcPath".data (by decide) (by decide)
      (by decide) hp ho (by decide) (by decide) (by decide) hpn3 hon3
  have hsrc := find_src "ifc_path".data "outputPath".data p o (by decide) (by decide) hp
    (by decide)
  have hfsrc : strFind (payloadFor "ifc_path" "outputPath" p o) ifcK2 = some (qlen pre9) := by
    rw [hchunks, ifcK2_eq]; exact hsrc.1
  have hkposPln : keyPosOf (payloadFor "ifc_path" "outputPath" p o) plnK1 plnK2 = none := by
    simp [keyPosOf, hfn1, hfn2]
  have hkposIfc : keyPosOf (payloadFor "ifc_path" "outputPath" p o) ifcK1 ifcK2 = some (qlen pre9) := by
    simp [keyPosOf, hfn3, hfsrc]
  have hexsrc : extractAt (payloadFor "ifc_path" "outputPath" p o) (some (qlen pre9)) = some p := by
    rw [hchunks]; exact hsrc.2
  have hout := find_out "ifc_path".data "outputPath".data p o (by decide) (by decide)
    (by decide) hp ho (by decide) (by decide) hpn5
  have hfout : strFind (payloadFor "ifc_path" "outputPath" p o) outK1
      = some (qlen (pre9 ++ ["ifc_path".data, ":".data, p, ",".data])) := by
    rw [hchunks, outK1_eq]; exact hout.1
  have hkposOut : keyPosOf (payloadFor "ifc_path" "outputPath" p o) outK1 outK2
      = some (qlen (pre9 ++ ["ifc_path".data, ":".data, p, ",".data])) := by
    simp [keyPosOf, hfout]
  have hexout : extractAt (payloadFor "ifc_path" "outputPath" p o)
      (some (qlen (pre9 ++ ["ifc_path".data, ":".data, p, ",".data]))) = some o := by
    rw [hchunks]; exact hout.2
  simp only [handleStartConversion, hkposPln, extractAt_none, hkposIfc, hexsrc,
    hkposOut, hexout]
  simp [hp0, ho0]

theorem handleStart_shape5 (jobId : String) (p o : List Char)
    (hp : '"' ∉ p) (ho : '"' ∉ o) (hp0 : p ≠ []) (ho0 : o ≠ [])
    (hpn1 : p ≠ "plnPath".data) (hpn2 : p ≠ "pln_path".data)
    (hpn3 : p ≠ "ifcPath".data) (hpn4 : p ≠ "ifc_path".data)
    (hpn5 : p ≠ "outputPath".data) (hpn6 : p ≠ "output_path".data)
    (hon1 : o ≠ "plnPath".data) (hon2 : o ≠ "pln_path".data)
    (hon3 : o ≠ "ifcPath".data) (hon4 : o ≠ "ifc_path".data)
    (hon5 : o ≠ "outputPath".data) (hon6 : o ≠ "output_path".data) :
    handleStartConversion jobId (payloadFor "plnPath" "output_path" p o)
      = .dispatch true p o := by
  have hchunks := payload_chunks "plnPath" "output_path" p o
  have hsrc := find_src "plnPath".data "output_path".data p o (by decide) (by decide) hp
    (by decide)
  have hfsrc : strFind (payloadFor "plnPath" "output_path" p o) plnK1 = some (qlen pre9) := by
    rw [hchunks, plnK1_eq]; exact hsrc.1
  have hkposPln : keyPosOf (payloadFor "plnPath" "output_path" p o) plnK1 plnK2 = some (qlen pre9) := by
    simp [keyPosOf, hfsrc]
  have hexsrc : extractAt (payloadFor "plnPath" "output_path" p o) (some (qlen pre9)) = some p := by
    rw [hchunks]; exact hsrc.2
  have hout := find_out "plnPath".data "output_path".data p o (by decide) (by decide)
    (by decide) hp ho (by decide) (by decide) hpn6
  have hfout : strFind (payloadFor "plnPath" "output_path" p o) outK2
      = some (qlen (pre9 ++ ["plnPath".data, ":".data, p, ",".data])) := by
    rw [hchunks, outK2_eq]; exact hout.1
  have hfn1 : strFind (payloadFor "plnPath" "output_path" p o) outK1 = none := by
    rw [hchunks, outK1_eq]
    exact find_none "plnPath".data "output_path".data p o "outputPath".data (by decide) (by decide)
      (by decide) hp ho (by decide) (by decide) (by decide) hpn5 hon5
  have hkposOut : keyPosOf (payloadFor "plnPath" "output_path" p o) outK1 outK2
      = some (qlen (pre9 ++ ["plnPath".data, ":".data, p, ",".data])) := by
    simp [keyPosOf, hfn1, hfout]
  have hexout : extractAt (payloadFor "plnPath" "output_path" p o)
      (some (qlen (pre9 ++ ["plnPath".data, ":".data, p, ",".data]))) = some o := by
    rw [hchunks]; exact hout.2
  simp only [handleStartConversion, hkposPln, hexsrc, hkposOut, hexout]
  simp [hp0, ho0]

theorem handleStart_shape6 (jobId : String) (p o : List Char)
    (hp : '"' ∉ p) (ho : '"' ∉ o) (hp0 : p ≠ []) (ho0 : o ≠ [])
    (hpn1 : p ≠ "plnPath".data) (hpn2 : p ≠ "pln_path".data)
    (hpn3 : p ≠ "ifcPath".data) (hpn4 : p ≠ "ifc_path".data)
    (hpn5 : p ≠ "outputPath".data) (hpn6 : p ≠ "output_path".data)
    (hon1 : o ≠ "plnPath".data) (hon2 : o ≠ "pln_path".data)
    (hon3 : o ≠ "ifcPath".data) (hon4 : o ≠ "ifc_path".data)
    (hon5 : o ≠ "outputPath".data) (hon6 : o ≠ "output_path".data) :
    handleStartConversion jobId (payloadFor "pln_path" "output_path" p o)
      = .dispatch true p o := by
  have hchunks := payload_chunks "pln_path" "output_path" p o
  have hfn1 : strFind (payloadFor "pln_path" "output_path" p o) plnK1 = none := by
    rw [hchunks, plnK1_eq]
    exact find_none "pln_path".data "output_path".data p o "plnPath".data (by decide) (by decide)
      (by decide) hp ho (by decide) (by decide) (by decide) hpn1 hon1
  have hsrc := find_src "pln_path".data "output_path".data p o (by decide) (by decide) hp
    (by decide)
  have hfsrc : strFind (payloadFor "pln_path" "output_path" p o) plnK2 = some (qlen pre9) := by
    rw [hchunks, plnK2_eq]; exact hsrc.1
  have hkposPln : keyPosOf (payloadFor "pln_path" "output_path" p o) plnK1 plnK2 = some (qlen pre9) := by
    simp [keyPosOf, hfn1, hfsrc]
  have hexsrc : extractAt (payloadFor "pln_path" "output_path" p o) (some (qlen pre9)) = some p := by
    rw [hchunks]; exact hsrc.2
  have hout := find_out "pln_path".data "output_path".data p o (by decide) (by decide)
    (by decide) hp ho (by decide) (by decide) hpn6
  have hfout : strFind (payloadFor "pln_path" "output_path" p o) outK2
      = some (qlen (pre9 ++ ["pln_path".data, ":".data, p, ",".data])) := by
    rw [hchunks, outK2_eq]; exact hout.1
  have hfn2 : strFind (payloadFor "pln_path" "output_path" p o) outK1 = none := by
    rw [hchunks, outK1_eq]
    exact find_none "pln_path".data "output_path".data p o "outputPath".data (by decide) (by decide)
      (by decide) hp ho (by decide) (by decide) (by decide) hpn5 hon5
  have hkposOut : keyPosOf (payloadFor "pln_path" "output_path" p o) outK1 outK2
      = some (qlen (pre9 ++ ["pln_path".data, ":".data, p, ",".data])) := by
    simp [keyPosOf, hfn2, hfout]
  have hexout : extractAt (payloadFor "pln_path" "output_path" p o)
      (some (qlen (pre9 ++ ["pln_path".data, ":".data, p, ",".data]))) = some o := by
    rw [hchunks]; exact hout.2
  simp only [handleStartConversion, hkposPln, hexsrc, hkposOut, hexout]
  simp [hp0, ho0]

theorem handleStart_shape7 (jobId : String) (p o : List Char)
    (hp : '"' ∉ p) (ho : '"' ∉ o) (hp0 : p ≠ []) (ho0 : o ≠ [])
    (hpn1 : p ≠ "plnPath".data) (hpn2 : p ≠ "pln_path".data)
    (hpn3 : p ≠ "ifcPath".data) (hpn4 : p ≠ "ifc_path".data)
    (hpn5 : p ≠ "outputPath".data) (hpn6 : p ≠ "output_path".data)
    (hon1 : o ≠ "plnPath".data) (hon2 : o ≠ "pln_path".data)
    (hon3 : o ≠ "ifcPath".data) (hon4 : o ≠ "ifc_path".data)
    (hon5 : o ≠ "outputPath".data) (hon6 : o ≠ "output_path".data) :
    handleStartConversion jobId (payloadFor "ifcPath" "output_path" p o)
      = .dispatch false p o := by
  have hchunks := payload_chunks "ifcPath" "output_path" p o
  have hfn1 : strFind (payloadFor "ifcPath" "output_path" p o) plnK1 = none := by
    rw [hchunks, plnK1_eq]
    exact find_none "ifcPath".data "output_path".data p o "plnPath".data (by decide) (by decide)
      (by decide) hp ho (by decide) (by decide) (by decide) hpn1 hon1
  have hfn2 : strFind (payloadFor "ifcPath" "output_path" p o) plnK2 = none := by
    rw [hchunks, plnK2_eq]
    exact find_none "ifcPath".data "output_path".data p o "pln_path".data (by decide) (by decide)
      (by decide) hp ho (by decide) (by decide) (by decide) hpn2 hon2
  have hsrc := find_src "ifcPath".data "output_path".data p o (by decide) (by decide) hp
    (by decide)
  have hfsrc : strFind (payloadFor "ifcPath" "output_path" p o) ifcK1 = some (qlen pre9) := by
    rw [hchunks, ifcK1_eq]; exact hsrc.1
  have hkposPln : keyPosOf (payloadFor "ifcPath" "output_path" p o) plnK1 plnK2 = none := by
    simp [keyPosOf, hfn1, hfn2]
  have hkposIfc : keyPosOf (payloadFor "ifcPath" "output_path" p o) ifcK1 ifcK2 = some (qlen pre9) := by
    simp [keyPosOf, hfsrc]
  have hexsrc : extractAt (payloadFor "ifcPath" "output_path" p o) (some (qlen pre9)) = some p := by
    rw [hchunks]; exact hsrc.2
  have hout := find_out "ifcPath".data "output_path".data p o (by decide) (by decide)
    (by decide) hp ho (by decide) (by decide) hpn6
  have hfout : strFind (payloadFor "ifcPath" "output_path" p o) outK2
      = some (qlen (pre9 ++ ["ifcPath".data, ":".data, p, ",".data])) := by
    rw [hchunks, outK2_eq]; exact hout.1
  have hfn3 : strFind (payloadFor "ifcPath" "output_path" p o) outK1 = none := by
    rw [hchunks, outK1_eq]
    exact find_none "ifcPath".data "output_path".data p o "outputPath".data (by decide) (by decide)
      (by decide) hp ho (by decide) (by decide) (by decide) hpn5 hon5
  have hkposOut : keyPosOf (payloadFor "ifcPath" "output_path" p o) outK1 outK2
      = some (qlen (pre9 ++ ["ifcPath".data, ":".data, p, ",".data])) := by
    simp [keyPosOf, hfn3, hfout]
  have hexout : extractAt (payloadFor "ifcPath" "output_path" p o)
      (some (qlen (pre9 ++ ["ifcPath".data, ":".data, p, ",".data]))) = some o := by
    rw [hchunks]; exact hout.2
  simp only [handleStartConversion, hkposPln, extractAt_none, hkposIfc, hexsrc,
    hkposOut, hexout]
  simp [hp0, ho0]

theorem handleStart_shape8 (jobId : String) (p o : List Char)
    (hp : '"' ∉ p) (ho : '"' ∉ o) (hp0 : p ≠ []) (ho0 : o ≠ [])
    (hpn1 : p ≠ "plnPath".data) (hpn2 : p ≠ "pln_path".data)
    (hpn3 : p ≠ "ifcPath".data) (hpn4 : p ≠ "ifc_path".data)
    (hpn5 : p ≠ "outputPath".data) (hpn6 : p ≠ "output_path".data)
    (hon1 : o ≠ "plnPath".data) (hon2 : o ≠ "pln_path".data)
    (hon3 : o ≠ "ifcPath".data) (hon4 : o ≠ "ifc_path".data)
    (hon5 : o ≠ "outputPath".data) (hon6 : o ≠ "output_path".data) :
    handleStartConversion jobId (payloadFor "ifc_path" "output_path" p o)
      = .dispatch false p o := by
  have hchunks := payload_chunks "ifc_path" "output_path" p o
  have hfn1 : strFind (payloadFor "ifc_path" "output_path" p o) plnK1 = none := by
    rw [hchunks, plnK1_eq]
    exact find_none "ifc_path".data "output_path".data p o "plnPath".data (by decide) (by decide)
      (by decide) hp ho (by decide) (by decide) (by decide) hpn1 hon1
  have hfn2 : strFind (payloadFor "ifc_path" "output_path" p o) plnK2 = none := by
    rw [hchunks, plnK2_eq]
    exact find_none "ifc_path".data "output_path".data p o "pln_path".data (by decide) (by decide)
      (by decide) hp ho (by decide) (by decide) (by decide) hpn2 hon2
  have hfn3 : strFind (payloadFor "ifc_path" "output_path" p o) ifcK1 = none := by
    rw [hchunks, ifcK1_eq]
    exact find_none "ifc_path".data "output_path".data p o "ifcPath".data (by decide) (by decide)
      (by decide) hp ho (by decide) (by decide) (by decide) hpn3 hon3
  have hsrc := find_src "ifc_path".data "output_path".data p o (by decide) (by decide) hp
    (by decide)
  have hfsrc : strFind (payloadFor "ifc_path" "output_path" p o) ifcK2 = some (qlen pre9) := by
    rw [hchunks, ifcK2_eq]; exact hsrc.1
  have hkposPln : keyPosOf (payloadFor "ifc_path" "output_path" p o) plnK1 plnK2 = none := by
    simp [keyPosOf, hfn1, hfn2]
  have hkposIfc : keyPosOf (payloadFor "ifc_path" "output_path" p o) ifcK1 ifcK2 = some (qlen pre9) := by
    simp [keyPosOf, hfn3, hfsrc]
  have hexsrc : extractAt (payloadFor "ifc_path" "output_path" p o) (some (qlen pre9)) = some p := by
    rw [hchunks]; exact hsrc.2
  have hout := find_out "ifc_path".data "output_path".data p o (by decide) (by decide)
    (by decide) hp ho (by decide) (by decide) hpn6
  have hfout : strFind (payloadFor "ifc_path" "output_path" p o) outK2
      = some (qlen (pre9 ++ ["ifc_path".data, ":".data, p, ",".data])) := by
    rw [hchunks, outK2_eq]; exact hout.1
  have hfn4 : strFind (payloadFor "ifc_path" "output_path" p o) outK1 = none := by
    rw [hchunks, outK1_eq]
    exact find_none "ifc_path".data "output_path".data p o "outputPath".data (by decide) (by decide)
      (by decide) hp ho (by decide) (by decide) (by decide) hpn5 hon5
  have hkposOut : keyPosOf (payloadFor "ifc_path" "output_path" p o) outK1 outK2
      = some (qlen (pre9 ++ ["ifc_path".data, ":".data, p, ",".data])) := by
    simp [keyPosOf, hfn4, hfout]
  have hexout : extractAt (payloadFor "ifc_path" "output_path" p o)
      (some (qlen (pre9 ++ ["ifc_path".data, ":".data, p, ",".data]))) = some o := by
    rw [hchunks]; exact hout.2
  simp only [handleStartConversion, hkposPln, extractAt_none, hkposIfc, hexsrc,
    hkposOut, hexout]
  simp [hp0, ho0]


theorem start_empty_guard (jobId : String) (payload : List Char) :
    handleStartConversion jobId payload
      = .errorEvent jobId "Missing input path (pln_path or ifc_path) and output_path"
    ∨ ∃ d i u, i ≠ [] ∧ u ≠ [] ∧ handleStartConversion jobId payload = .dispatch d i u := by
  have key : ∀ (d : Bool) (i u : List Char),
      (if i = [] ∨ u = [] then
        StartDecision.errorEvent jobId
          "Missing input path (pln_path or ifc_path) and output_path"
      else StartDecision.dispatch d i u)
        = StartDecision.errorEvent jobId
            "Missing input path (pln_path or ifc_path) and output_path"
      ∨ ∃ d2 i2 u2, i2 ≠ [] ∧ u2 ≠ [] ∧
        (if i = [] ∨ u = [] then
          StartDecision.errorEvent jobId
            "Missing input path (pln_path or ifc_path) and output_path"
        else StartDecision.dispatch d i u) = StartDecision.dispatch d2 i2 u2 := by
    intro d i u
    split
    · exact Or.inl rfl
    · next h =>
      push_neg at h
      exact Or.inr ⟨d, i, u, h.1, h.2, rfl⟩
  exact key _ _ _


/-- C6 counterexample: the router's substring scan mistakes a quoted key
name occurring inside a *value* for the field itself.  In this payload the
only source-path field is `ifcPath` (with value the eight characters
`plnPath`), so per the claim the direction should be IFC→PLN with input
`plnPath`; but `payload.find("\x22plnPath\x22")` hits the value, so the code
dispatches direction PLN→IFC and extracts `/out.pln` as the input path. -/
theorem c6_value_mistaken_for_key :
    handleStartConversion "J1"
        ("\x7b\"command\":\"start_conversion\",\"jobId\":\"J1\",\"ifcPath\":\"plnPath\",\"outputPath\":\"/out.pln\"\x7d".data)
      = StartDecision.dispatch true "/out.pln".data "/out.pln".data := by decide

/-- C6 (amended): for canonical `start_conversion` payloads whose path
values contain no double quote and are not themselves one of the six key
names, the router accepts both key spellings of the source-path field
(`plnPath`/`pln_path`, `ifcPath`/`ifc_path`) and of the output-path field
(`outputPath`/`output_path`), infers PLN→IFC from a `plnPath` variant and
IFC→PLN from an `ifcPath` variant, and extracts the two path values; a
payload with an absent source field, an absent output field, or an empty
source value yields a single error event and no dispatch (an absent field
reads as the empty string, not a parse failure); and in general every
payload either gets the missing-path error event or is dispatched with
non-empty paths. -/
theorem c6_parsing_amended (jobId : String) (p o : List Char)
    (hp : '"' ∉ p) (ho : '"' ∉ o) (hp0 : p ≠ []) (ho0 : o ≠ [])
    (hpk : ∀ k ∈ [("plnPath".data : List Char), "pln_path".data, "ifcPath".data,
      "ifc_path".data, "outputPath".data, "output_path".data], p ≠ k)
    (hok : ∀ k ∈ [("plnPath".data : List Char), "pln_path".data, "ifcPath".data,
      "ifc_path".data, "outputPath".data, "output_path".data], o ≠ k) :
    handleStartConversion jobId (payloadFor "plnPath" "outputPath" p o)
      = StartDecision.dispatch true p o
    ∧ handleStartConversion jobId (payloadFor "pln_path" "outputPath" p o)
      = StartDecision.dispatch true p o
    ∧ handleStartConversion jobId (payloadFor "ifcPath" "outputPath" p o)
      = StartDecision.dispatch false p o
    ∧ handleStartConversion jobId (payloadFor "ifc_path" "outputPath" p o)
      = StartDecision.dispatch false p o
    ∧ handleStartConversion jobId (payloadFor "plnPath" "output_path" p o)
      = StartDecision.dispatch true p o
    ∧ handleStartConversion jobId (payloadFor "pln_path" "output_path" p o)
      = StartDecision.dispatch true p o
    ∧ handleStartConversion jobId (payloadFor "ifcPath" "output_path" p o)
      = StartDecision.dispatch false p o
    ∧ handleStartConversion jobId (payloadFor "ifc_path" "output_path" p o)
      = StartDecision.dispatch false p o
    ∧ handleStartConversion "J1"
        ("\x7b\"command\":\"start_conversion\",\"jobId\":\"J1\",\"outputPath\":\"/out.ifc\"\x7d".data)
      = StartDecision.errorEvent "J1"
          "Missing input path (pln_path or ifc_path) and output_path"
    ∧ handleStartConversion "J1"
        ("\x7b\"command\":\"start_conversion\",\"jobId\":\"J1\",\"plnPath\":\"/in.pln\"\x7d".data)
      = StartDecision.errorEvent "J1"
          "Missing input path (pln_path or ifc_path) and output_path"
    ∧ handleStartConversion "J1"
        ("\x7b\"command\":\"start_conversion\",\"jobId\":\"J1\",\"plnPath\":\"\",\"outputPath\":\"/out.ifc\"\x7d".data)
      = StartDecision.errorEvent "J1"
          "Missing input path (pln_path or ifc_path) and output_path"
    ∧ (∀ (jid : String) (payload : List Char),
        handleStartConversion jid payload
          = StartDecision.errorEvent jid
              "Missing input path (pln_path or ifc_path) and output_path"
        ∨ ∃ d i u, i ≠ [] ∧ u ≠ [] ∧
            handleStartConversion jid payload = StartDecision.dispatch d i u) := by
  have hpn1 : p ≠ "plnPath".data := hpk _ (by simp)
  have hpn2 : p ≠ "pln_path".data := hpk _ (by simp)
  have hpn3 : p ≠ "ifcPath".data := hpk _ (by simp)
  have hpn4 : p ≠ "ifc_path".data := hpk _ (by simp)
  have hpn5 : p ≠ "outputPath".data := hpk _ (by simp)
  have hpn6 : p ≠ "output_path".data := hpk _ (by simp)
  have hon1 : o ≠ "plnPath".data := hok _ (by simp)
  have hon2 : o ≠ "pln_path".data := hok _ (by simp)
  have hon3 : o ≠ "ifcPath".data := hok _ (by simp)
  have hon4 : o ≠ "ifc_path".data := hok _ (by simp)
  have hon5 : o ≠ "outputPath".data := hok _ (by simp)
  have hon6 : o ≠ "output_path".data := hok _ (by simp)
  refine ⟨handleStart_shape1 jobId p o hp ho hp0 ho0 hpn1 hpn2 hpn3 hpn4 hpn5 hpn6
      hon1 hon2 hon3 hon4 hon5 hon6,
    handleStart_shape2 jobId p o hp ho hp0 ho0 hpn1 hpn2 hpn3 hpn4 hpn5 hpn6
      hon1 hon2 hon3 hon4 hon5 hon6,
    handleStart_shape3 jobId p o hp ho hp0 ho0 hpn1 hpn2 hpn3 hpn4 hpn5 hpn6
      hon1 hon2 hon3 hon4 hon5 hon6,
    handleStart_shape4 jobId p o hp ho hp0 ho0 hpn1 hpn2 hpn3 hpn4 hpn5 hpn6
      hon1 hon2 hon3 hon4 hon5 hon6,
    handleStart_shape5 jobId p o hp ho hp0 ho0 hpn1 hpn2 hpn3 hpn4 hpn5 hpn6
      hon1 hon2 hon3 hon4 hon5 hon6,
    handleStart_shape6 jobId p o hp ho hp0 ho0 hpn1 hpn2 hpn3 hpn4 hpn5 hpn6
      hon1 hon2 hon3 hon4 hon5 hon6,
    handleStart_shape7 jobId p o hp ho hp0 ho0 hpn1 hpn2 hpn3 hpn4 hpn5 hpn6
      hon1 hon2 hon3 hon4 hon5 hon6,
    handleStart_shape8 jobId p o hp ho hp0 ho0 hpn1 hpn2 hpn3 hpn4 hpn5 hpn6
      hon1 hon2 hon3 hon4 hon5 hon6,
    by decide, by decide, by decide,
    fun jid payload => start_empty_guard jid payload⟩


/-- Witness for `c6_parsing_amended`: concrete quote-free paths. -/
theorem c6_parsing_amended_witness :
    handleStartConversion "J2"
        (payloadFor "plnPath" "outputPath" "/in.pln".data "/out.ifc".data)
      = StartDecision.dispatch true "/in.pln".data "/out.ifc".data :=
  (c6_parsing_amended "J2" "/in.pln".data "/out.ifc".data (by decide) (by decide)
    (by decide) (by decide) (by decide) (by decide)).1


/-- Witness for `c5_cancel_iff` at a running job with matching id. -/
theorem c5_cancel_iff_witness :
    (CancelConversion "J1" ⟨true, "J1", false⟩
        = (true, { (⟨true, "J1", false⟩ : JobState) with shouldCancel := true })
      ∧ (⟨true, "J1", false⟩ : JobState).conversionInProgress = true
      ∧ (⟨true, "J1", false⟩ : JobState).currentJobId = "J1")
    ∨ (CancelConversion "J1" ⟨true, "J1", false⟩ = (false, ⟨true, "J1", false⟩)
      ∧ ((⟨true, "J1", false⟩ : JobState).conversionInProgress = false
        ∨ (⟨true, "J1", false⟩ : JobState).currentJobId ≠ "J1")) :=
  c5_cancel_iff "J1" ⟨true, "J1", false⟩


/-- Starts processed while a conversion is Running are all rejected and
leave the shared state untouched. -/
theorem admitRun_busy (jobs : List String) (t : JobState)
    (ht : t.conversionInProgress = true) :
    (admitRun jobs t).2 = t ∧ ∀ b ∈ (admitRun jobs t).1, b = false := by
  induction jobs with
  | nil => exact ⟨rfl, by simp [admitRun]⟩
  | cons j rest ih =>
    have ha : admitAttempt j t = (false, t) := by simp [admitAttempt, ht]
    constructor
    · show (admitRun (j :: rest) t).2 = t
      simp only [admitRun, ha]
      exact ih.1
    · intro b hb
      simp only [admitRun, ha] at hb
      rcases List.mem_cons.mp hb with h | h
      · exact h
      · exact ih.2 b h

/-- Over any serialized batch of start requests, at most one is admitted
before the running conversion completes. -/
theorem admitRun_count (jobs : List String) (s : JobState) :
    (admitRun jobs s).1.count true ≤ 1 := by
  cases jobs with
  | nil => simp [admitRun]
  | cons j rest =>
    by_cases hs : s.conversionInProgress = true
    · have h0 : (admitRun (j :: rest) s).1.count true = 0 := by
        apply List.count_eq_zero.mpr
        intro hmem
        have := (admitRun_busy (j :: rest) s hs).2 true hmem
        simp at this
      omega
    · have hs2 : s.conversionInProgress = false := by
        simpa using hs
      have ha : admitAttempt j s = (true, admitState j) := by
        simp [admitAttempt, hs2]
      have h0 : (admitRun rest (admitState j)).1.count true = 0 := by
        apply List.count_eq_zero.mpr
        intro hmem
        have := (admitRun_busy rest (admitState j) rfl).2 true hmem
        simp at this
      show (admitRun (j :: rest) s).1.count true ≤ 1
      simp only [admitRun, ha]
      simp [List.count_cons, h0]

/-- C1: single-flight admission.  The conversion functions run only inside
`Execute` handlers pinned to ArchiCAD's main thread
(`ScheduleForExecutionOnMainThread`, `ConversionCommand.hpp`), and all
start requests funnel through the one blocking WebSocket thread, so the
check-then-set admission prefix executes atomically with respect to every
other start.  Under that serialization: every start processed while a
conversion is Running is rejected with the running job's state untouched;
over any batch of starts at most one is admitted before the conversion
completes, so at most one job is Running at any instant; and the busy
branch of `ConvertPlnToIfc` / `ConvertIfcToPln` returns `false` without
modifying `s_conversionInProgress` / `s_currentJobId`. -/
theorem c1_single_flight (jobs : List String) (s t : JobState)
    (ht : t.conversionInProgress = true)
    (envP : PlnEnv) (envI : IfcEnv) (jobId pp po ip io : String) :
    (admitRun jobs t).2 = t
    ∧ (∀ b ∈ (admitRun jobs t).1, b = false)
    ∧ (admitRun jobs s).1.count true ≤ 1
    ∧ (ConvertPlnToIfc envP jobId pp po t).success = false
    ∧ (ConvertPlnToIfc envP jobId pp po t).admitted = false
    ∧ (ConvertPlnToIfc envP jobId pp po t).state = t
    ∧ (ConvertIfcToPln envI jobId ip io t).success = false
    ∧ (ConvertIfcToPln envI jobId ip io t).admitted = false
    ∧ (ConvertIfcToPln envI jobId ip io t).state = t := by
  have hb := admitRun_busy jobs t ht
  refine ⟨hb.1, hb.2, admitRun_count jobs s, ?_, ?_, ?_, ?_, ?_, ?_⟩ <;>
    simp [ConvertPlnToIfc, ConvertIfcToPln, ht]

/-- Witness for `c1_single_flight`: two queued starts against a running
job, and the same batch issued from the idle state. -/
theorem c1_single_flight_witness :
    (admitRun ["J2", "J3"] ⟨true, "J1", false⟩).2 = ⟨true, "J1", false⟩
    ∧ (∀ b ∈ (admitRun ["J2", "J3"] ⟨true, "J1", false⟩).1, b = false)
    ∧ (admitRun ["J2", "J3"] ⟨false, "", false⟩).1.count true ≤ 1
    ∧ (ConvertPlnToIfc ⟨none, 0, .ok 0, 0, false, .ok 0⟩ "J7" "a" "b"
        ⟨true, "J1", false⟩).success = false
    ∧ (ConvertPlnToIfc ⟨none, 0, .ok 0, 0, false, .ok 0⟩ "J7" "a" "b"
        ⟨true, "J1", false⟩).admitted = false
    ∧ (ConvertPlnToIfc ⟨none, 0, .ok 0, 0, false, .ok 0⟩ "J7" "a" "b"
        ⟨true, "J1", false⟩).state = ⟨true, "J1", false⟩
    ∧ (ConvertIfcToPln ⟨none, 0, .ok 0, .ok 0⟩ "J7" "c" "d"
        ⟨true, "J1", false⟩).success = false
    ∧ (ConvertIfcToPln ⟨none, 0, .ok 0, .ok 0⟩ "J7" "c" "d"
        ⟨true, "J1", false⟩).admitted = false
    ∧ (ConvertIfcToPln ⟨none, 0, .ok 0, .ok 0⟩ "J7" "c" "d"
        ⟨true, "J1", false⟩).state = ⟨true, "J1", false⟩ :=
  c1_single_flight ["J2", "J3"] ⟨false, "", false⟩ ⟨true, "J1", false⟩ rfl
    ⟨none, 0, .ok 0, 0, false, .ok 0⟩ ⟨none, 0, .ok 0, .ok 0⟩ "J7" "a" "b" "c" "d"

end IfcGateway
